import Mathlib

/-!
The DNS cluster of `source/extensions/clusters/dns/dns_cluster.cc`.

A shallow embedding of `DnsClusterImpl` and its `ResolveTarget`s: construction from the
load assignment, `startPreInit`, `updateAllHosts`, `isSuccessfulResponse`, and the
completion callback installed by `startResolve`.

Conventions of the embedding.
* Durations are `Int` counts (`std::chrono::seconds` / `std::chrono::milliseconds` have a
  signed 64-bit representation); every arithmetic step of the source that can leave the
  64-bit range is wrapped explicitly (`int64Wrap`, `uint64Wrap`).
* Collaborators that live outside this translation unit (the back-off strategy, the host
  constructor's verdict, the host-list differ of the dynamic cluster base, the zone-aware
  endpoint validation) are fields of `Env`.
* Calls to collaborators whose effect is not part of the cluster state are recorded, in
  order, in `DnsClusterImpl.trace`.
-/

namespace Envoy
namespace Upstream

/-! ## Machine integers -/

/-- Two's complement wrap of an integer into the signed 64-bit range. -/
def int64Wrap (x : Int) : Int := (x + 2 ^ 63) % 2 ^ 64 - 2 ^ 63

/-- Wrap of an integer into the unsigned 64-bit range (the cast of a signed count to `uint64`). -/
def uint64Wrap (x : Int) : Nat := (x % 2 ^ 64).toNat

/-- The value of `std::chrono::seconds::max()`. -/
def secondsMax : Int := 2 ^ 63 - 1

/-- Conversion `std::chrono::seconds -> std::chrono::milliseconds` (multiplication by 1000 in
the signed 64-bit representation). -/
def secondsToMs (s : Int) : Int := int64Wrap (s * 1000)

/-- Construction `std::chrono::milliseconds(v)` from a `uint64` value `v`. -/
def msOfUint64 (v : Nat) : Int := int64Wrap ((v % 2 ^ 64 : Nat) : Int)

/-! ## Data model -/

/-- `Network::DnsResolver::ResolutionStatus`. -/
inductive ResolutionStatus where
  | Completed
  | Failure
deriving DecidableEq, Repr

/-- A resolved network address: an IP literal and a port. -/
structure Address where
  ip : String
  port : Nat
deriving DecidableEq, Repr

/-- Modelled from the spec: `Network::Address::Instance::asString` is not part of this
translation unit; the address string is the identity key of a host and is rendered from
the IP literal and the port. -/
def Address.asString (a : Address) : String := a.ip ++ ":" ++ toString a.port

/-- Modelled from the spec: `Network::Utility::getAddressWithPort` is not part of this
translation unit; it returns the same IP with the port that is configured on the target
(the resolver interface carries no port). -/
def getAddressWithPort (a : Address) (port : Nat) : Address := { a with port := port }

/-- `Network::DnsResponse`: the `addrInfo()` of one entry, an address and a TTL in seconds. -/
structure DnsResponse where
  address : Address
  ttl : Int
deriving DecidableEq, Repr

/-- The codes of `absl::Status` that the cluster distinguishes. -/
inductive StatusCode where
  | kOk
  | kInvalidArgument
  | kOther (n : Nat)
deriving DecidableEq, Repr

/-- `absl::Status`. -/
structure Status where
  code : StatusCode
  message : String
deriving DecidableEq, Repr

/-- `absl::OkStatus()`. -/
def OkStatus : Status := ⟨StatusCode.kOk, ""⟩

/-- `absl::InvalidArgumentError(msg)`. -/
def InvalidArgumentError (msg : String) : Status := ⟨StatusCode.kInvalidArgument, msg⟩

/-- `absl::Status::ok()`. -/
def Status.ok (s : Status) : Bool := s.code == StatusCode.kOk

/-- `envoy::config::core::v3::SocketAddress`. -/
structure SocketAddress where
  address : String
  port_value : Nat
  resolver_name : String
deriving DecidableEq, Repr

/-- `envoy::config::endpoint::v3::LbEndpoint` (the fields the cluster reads). -/
structure LbEndpoint where
  hostname : String
  socket_address : SocketAddress
  metadata : String
  load_balancing_weight : Nat
  health_check_config : String
  health_status : Nat
deriving DecidableEq, Repr

/-- `envoy::config::endpoint::v3::LocalityLbEndpoints` (the fields the cluster reads). -/
structure LocalityLbEndpoints where
  locality : String
  priority : Nat
  metadata : String
  lb_endpoints : List LbEndpoint
deriving DecidableEq, Repr

/-- A host object. `uid` stands for the identity of the allocated object: two hosts built
by two calls of `HostImpl::create` differ in `uid` even when all their attributes agree. -/
structure Host where
  uid : Nat
  hostname : String
  address : Address
  endpoint_metadata : String
  locality_metadata : String
  weight : Nat
  locality : String
  health_check_config : String
  priority : Nat
  health_status : Nat
deriving DecidableEq, Repr

/-- `HostVector`. -/
abbrev HostVector := List Host

/-- `HostMap`: address string to host, as an association list with distinct keys. -/
abbrev HostMap := List (String × Host)

/-- The counters of `configUpdateStats()` that the cluster touches. -/
structure ConfigUpdateStats where
  update_attempt : Nat
  update_success : Nat
  update_failure : Nat
  update_no_rebuild : Nat
deriving DecidableEq, Repr

/-- Calls to collaborators, recorded in the order in which they are made. -/
inductive Event where
  | resolve (dns_address : String)
  | onPreInitComplete
  | enableTimer (target : Nat) (ms : Int)
  | backoffReset
  | backoffNext
  | random
  | updateClusterPrioritySet (priority : Nat) (hosts added removed : HostVector)
      (weighted_priority_health : Bool) (overprovisioning_factor : Nat)
deriving DecidableEq, Repr

/-- What `updateDynamicHostList` hands back: its boolean result and its three out-parameters. -/
structure HostListUpdate where
  changed : Bool
  current_priority_hosts : HostVector
  hosts_added : HostVector
  hosts_removed : HostVector
deriving DecidableEq, Repr

/-- The collaborators of the cluster that are defined outside `dns_cluster.cc`.
`β` is the state of the failure back-off strategy. -/
structure Env (β : Type) where
  /-- `BackOffStrategy::nextBackOffMs`: the `uint64` delay and the strategy's next state. -/
  nextBackOffMs : β → Nat × β
  /-- `BackOffStrategy::reset`. -/
  reset : β → β
  /-- The verdict of `HostImpl::create` on the host it is asked to build: an error message,
  or `none` when construction succeeds. -/
  hostCreateError : Host → Option String
  /-- `BaseDynamicClusterImpl::updateDynamicHostList new_hosts hosts_ all_hosts_ all_new_hosts`. -/
  updateDynamicHostList : HostVector → HostVector → HostMap → List String → HostListUpdate
  /-- `validateEndpointsForZoneAwareRouting`. -/
  validateEndpointsForZoneAwareRouting : LocalityLbEndpoints → Status

/-- `DnsClusterImpl::ResolveTarget`. -/
structure ResolveTarget where
  locality_lb_endpoints : LocalityLbEndpoints
  lb_endpoint : LbEndpoint
  dns_address : String
  hostname : String
  port : Nat
  /-- The field `hosts_`. -/
  hosts : HostVector
  /-- The field `all_hosts_`. -/
  all_hosts : HostMap
  /-- Whether `active_query_` is non-null. -/
  active_query : Bool
  /-- The delay `resolve_timer_` is armed with, `none` while it is disarmed. -/
  resolve_timer : Option Int
deriving DecidableEq, Repr

/-- `DnsClusterImpl`: configuration, targets, counters, and the record of outgoing calls. -/
structure DnsClusterImpl (β : Type) where
  dns_refresh_rate_ms : Int
  dns_jitter_ms : Int
  respect_dns_ttl : Bool
  all_addresses_in_single_endpoint : Bool
  wait_for_warm_on_init : Bool
  overprovisioning_factor : Nat
  weighted_priority_health : Bool
  failure_backoff_strategy : β
  resolve_targets : List ResolveTarget
  stats : ConfigUpdateStats
  /-- The identity the next allocated host object receives. -/
  next_host_uid : Nat
  trace : List Event

/-- The part of the cluster and DNS-cluster protos that the constructor reads. -/
structure ClusterConfig where
  endpoints : List LocalityLbEndpoints
  dns_refresh_rate_ms : Int
  dns_jitter_ms : Int
  respect_dns_ttl : Bool
  all_addresses_in_single_endpoint : Bool
  wait_for_warm_on_init : Bool
  overprovisioning_factor : Nat
  weighted_priority_health : Bool
deriving DecidableEq, Repr

/-! ## Construction -/

/-- `ResolveTarget::ResolveTarget`. -/
def ResolveTarget.new (dns_address : String) (dns_port : Nat)
    (locality_lb_endpoint : LocalityLbEndpoints) (lb_endpoint : LbEndpoint) : ResolveTarget :=
  { locality_lb_endpoints := locality_lb_endpoint
    lb_endpoint := lb_endpoint
    dns_address := dns_address
    hostname := if lb_endpoint.hostname.isEmpty then dns_address else lb_endpoint.hostname
    port := dns_port
    hosts := []
    all_hosts := []
    active_query := false
    resolve_timer := none }

/-- The inner loop of the constructor, over the `lb_endpoints` of one locality group:
`Except.error` is the early `return` with `creation_status` set. -/
def endpointLoop (locality_lb_endpoint : LocalityLbEndpoints) :
    List LbEndpoint → List ResolveTarget → Except Status (List ResolveTarget)
  | [], resolve_targets => Except.ok resolve_targets
  | lb_endpoint :: rest, resolve_targets =>
    let socket_address := lb_endpoint.socket_address
    if !socket_address.resolver_name.isEmpty then
      Except.error (InvalidArgumentError "DNS clusters must NOT have a custom resolver name set")
    else
      endpointLoop locality_lb_endpoint rest
        (resolve_targets ++ [ResolveTarget.new socket_address.address socket_address.port_value
          locality_lb_endpoint lb_endpoint])

/-- The outer loop of the constructor, over the locality groups of the load assignment. -/
def localityLoop {β : Type} (env : Env β) (all_addresses_in_single_endpoint : Bool) :
    List LocalityLbEndpoints → List ResolveTarget → Except Status (List ResolveTarget)
  | [], resolve_targets => Except.ok resolve_targets
  | locality_lb_endpoint :: rest, resolve_targets =>
    let validation := env.validateEndpointsForZoneAwareRouting locality_lb_endpoint
    if !all_addresses_in_single_endpoint && !validation.ok then
      Except.error validation
    else
      match endpointLoop locality_lb_endpoint locality_lb_endpoint.lb_endpoints resolve_targets with
      | Except.error e => Except.error e
      | Except.ok resolve_targets => localityLoop env all_addresses_in_single_endpoint rest resolve_targets

/-- The members as the initialiser list leaves them, before the constructor body runs. -/
def DnsClusterImpl.init {β : Type} (backoff : β) (cfg : ClusterConfig) : DnsClusterImpl β :=
  { dns_refresh_rate_ms := cfg.dns_refresh_rate_ms
    dns_jitter_ms := cfg.dns_jitter_ms
    respect_dns_ttl := cfg.respect_dns_ttl
    all_addresses_in_single_endpoint := cfg.all_addresses_in_single_endpoint
    wait_for_warm_on_init := cfg.wait_for_warm_on_init
    overprovisioning_factor := 0
    weighted_priority_health := false
    failure_backoff_strategy := backoff
    resolve_targets := []
    stats := ⟨0, 0, 0, 0⟩
    next_host_uid := 0
    trace := [] }

/-- `DnsClusterImpl::DnsClusterImpl`. `base_status` is `creation_status` as the base class
constructor leaves it; the result is the final `creation_status` and the object. -/
def DnsClusterImpl.ctor {β : Type} (env : Env β) (backoff : β) (base_status : Status)
    (cfg : ClusterConfig) : Status × DnsClusterImpl β :=
  let self : DnsClusterImpl β := DnsClusterImpl.init backoff cfg
  let locality_lb_endpoints := cfg.endpoints
  if self.all_addresses_in_single_endpoint &&
      (locality_lb_endpoints.length != 1 ||
        (locality_lb_endpoints.head?.map (fun l => l.lb_endpoints.length)) != some 1) then
    (InvalidArgumentError
      "LOGICAL_DNS clusters must have a single locality_lb_endpoint and a single lb_endpoint",
     self)
  else
    match localityLoop env self.all_addresses_in_single_endpoint locality_lb_endpoints [] with
    | Except.error e => (e, self)
    | Except.ok resolve_targets =>
      (base_status,
       { self with
          resolve_targets := resolve_targets
          overprovisioning_factor := cfg.overprovisioning_factor
          weighted_priority_health := cfg.weighted_priority_health })

/-- `DnsClusterImpl::create`. -/
def DnsClusterImpl.create {β : Type} (env : Env β) (backoff : β) (base_status : Status)
    (cfg : ClusterConfig) : Except Status (DnsClusterImpl β) :=
  let r := DnsClusterImpl.ctor env backoff base_status cfg
  if r.1.ok then Except.ok r.2 else Except.error r.1

/-! ## Aggregation -/

/-- The loops of `updateAllHosts`: every host of every target, in order, is registered with
the priority state manager when the target's priority is `current_priority`; registration
appends to the host list of that priority. -/
def registeredHosts (resolve_targets : List ResolveTarget) (current_priority : Nat) : HostVector :=
  resolve_targets.foldl
    (fun registered target =>
      target.hosts.foldl
        (fun registered host =>
          if target.locality_lb_endpoints.priority == current_priority then registered ++ [host]
          else registered)
        registered)
    []

/-- `DnsClusterImpl::updateAllHosts`. -/
def DnsClusterImpl.updateAllHosts {β : Type} (self : DnsClusterImpl β)
    (hosts_added hosts_removed : HostVector) (current_priority : Nat) : DnsClusterImpl β :=
  { self with
    trace := self.trace ++
      [Event.updateClusterPrioritySet current_priority
        (registeredHosts self.resolve_targets current_priority)
        hosts_added hosts_removed self.weighted_priority_health self.overprovisioning_factor] }

/-! ## Resolution -/

/-- `DnsClusterImpl::ResolveTarget::isSuccessfulResponse`; `single` is
`parent_.all_addresses_in_single_endpoint_`. -/
def ResolveTarget.isSuccessfulResponse (single : Bool) (response : List DnsResponse)
    (status : ResolutionStatus) : Bool :=
  status == ResolutionStatus.Completed && (!single || (single && !response.isEmpty))

/-- The host object that `HostImpl::create` allocates from the arguments the callback passes:
`hostname_`, the address, the two metadata blobs, the weight, the locality, the health check
configuration, the priority of the locality group and the health status. -/
def HostImpl.new (uid : Nat) (target : ResolveTarget) (address : Address) : Host :=
  { uid := uid
    hostname := target.hostname
    address := address
    endpoint_metadata := target.lb_endpoint.metadata
    locality_metadata := target.locality_lb_endpoints.metadata
    weight := target.lb_endpoint.load_balancing_weight
    locality := target.locality_lb_endpoints.locality
    health_check_config := target.lb_endpoint.health_check_config
    priority := target.locality_lb_endpoints.priority
    health_status := target.lb_endpoint.health_status }

/-- `HostImpl::create` with the arguments the callback passes: the host object, or the
error the constructor reports. -/
def HostImpl.create {β : Type} (env : Env β) (uid : Nat) (target : ResolveTarget)
    (address : Address) : Except String Host :=
  match env.hostCreateError (HostImpl.new uid target address) with
  | some e => Except.error e
  | none => Except.ok (HostImpl.new uid target address)

/-- The locals of the response loop of the callback. -/
structure RoundLocals where
  new_hosts : HostVector
  ttl_refresh_rate : Int
  all_new_hosts : List String
  next_host_uid : Nat
deriving DecidableEq, Repr

/-- The locals as they are declared before the response loop. -/
def RoundLocals.init (next_host_uid : Nat) : RoundLocals :=
  { new_hosts := [], ttl_refresh_rate := secondsMax, all_new_hosts := [],
    next_host_uid := next_host_uid }

/-- The response loop of the callback. `Except.error` is the early `return` taken when
`HostImpl::create` fails; `single` is `parent_.all_addresses_in_single_endpoint_`. -/
def responseLoop {β : Type} (env : Env β) (single : Bool) (target : ResolveTarget) :
    List DnsResponse → RoundLocals → Except String RoundLocals
  | [], locals => Except.ok locals
  | resp :: rest, locals =>
    let address := getAddressWithPort resp.address target.port
    if address.asString ∈ locals.all_new_hosts then
      responseLoop env single target rest locals
    else
      match HostImpl.create env locals.next_host_uid target address with
      | Except.error e => Except.error e
      | Except.ok host =>
        let locals : RoundLocals :=
          { new_hosts := locals.new_hosts ++ [host]
            ttl_refresh_rate := min locals.ttl_refresh_rate resp.ttl
            all_new_hosts := locals.all_new_hosts ++ [address.asString]
            next_host_uid := locals.next_host_uid + 1 }
        if single then Except.ok locals
        else responseLoop env single target rest locals

/-- `all_hosts_.erase(key)`. -/
def HostMap.erase (m : HostMap) (key : String) : HostMap := m.filter (fun kv => kv.1 != key)

/-- `all_hosts_.insert((key, host))`: an existing key keeps its host. -/
def HostMap.insert (m : HostMap) (key : String) (host : Host) : HostMap :=
  if m.any (fun kv => kv.1 == key) then m else m ++ [(key, host)]

/-- The two loops that bring `all_hosts_` up to date after a change. -/
def updateHostMap (all_hosts : HostMap) (hosts_added hosts_removed : HostVector) : HostMap :=
  hosts_added.foldl (fun m host => HostMap.insert m host.address.asString host)
    (hosts_removed.foldl (fun m host => HostMap.erase m host.address.asString) all_hosts)

/-- The refresh rate the success branch computes before the jitter is added. -/
def ttlOrConfiguredRate (dns_refresh_rate_ms : Int) (respect_dns_ttl : Bool)
    (response : List DnsResponse) (ttl_refresh_rate : Int) : Int :=
  if !response.isEmpty && respect_dns_ttl && ttl_refresh_rate != 0 then
    secondsToMs ttl_refresh_rate
  else dns_refresh_rate_ms

/-- The jitter offset `random() % dns_jitter_ms_.count()`, computed in `uint64`, as a
millisecond count. -/
def jitterOffset (dns_jitter_ms : Int) (random : Nat) : Int :=
  msOfUint64 ((random % 2 ^ 64) % uint64Wrap dns_jitter_ms)

/-- The refresh rate of the success branch: TTL or configured rate, plus jitter when a
positive jitter bound is configured. -/
def successRefreshRate (dns_refresh_rate_ms dns_jitter_ms : Int) (respect_dns_ttl : Bool)
    (response : List DnsResponse) (ttl_refresh_rate : Int) (random : Nat) : Int :=
  let final_refresh_rate :=
    ttlOrConfiguredRate dns_refresh_rate_ms respect_dns_ttl response ttl_refresh_rate
  if dns_jitter_ms > 0 then int64Wrap (final_refresh_rate + jitterOffset dns_jitter_ms random)
  else final_refresh_rate

/-- The tail of the callback: `parent_.onPreInitComplete()` and then
`resolve_timer_->enableTimer(final_refresh_rate)` on target number `i`, whose state is `target`. -/
def finishRound {β : Type} (self : DnsClusterImpl β) (i : Nat) (target : ResolveTarget)
    (final_refresh_rate : Int) : DnsClusterImpl β :=
  { self with
    resolve_targets :=
      self.resolve_targets.set i { target with resolve_timer := some final_refresh_rate }
    trace := self.trace ++ [Event.onPreInitComplete, Event.enableTimer i final_refresh_rate] }

/-- The completion callback that `startResolve` hands to the resolver, run for target number
`i` of the cluster. `random` is the value `parent_.random_.random()` returns if it is called. -/
def onResolveComplete {β : Type} (env : Env β) (self : DnsClusterImpl β) (i : Nat)
    (status : ResolutionStatus) (response : List DnsResponse) (random : Nat) :
    DnsClusterImpl β :=
  match self.resolve_targets[i]? with
  | none => self
  | some target0 =>
    let target : ResolveTarget := { target0 with active_query := false }
    if ResolveTarget.isSuccessfulResponse self.all_addresses_in_single_endpoint response status then
      let self : DnsClusterImpl β :=
        { self with stats := { self.stats with update_success := self.stats.update_success + 1 } }
      match responseLoop env self.all_addresses_in_single_endpoint target response
          (RoundLocals.init self.next_host_uid) with
      | Except.error _ =>
        { self with
          stats := { self.stats with update_failure := self.stats.update_failure + 1 }
          resolve_targets := self.resolve_targets.set i target }
      | Except.ok locals =>
        let self : DnsClusterImpl β := { self with next_host_uid := locals.next_host_uid }
        let update :=
          env.updateDynamicHostList locals.new_hosts target.hosts target.all_hosts
            locals.all_new_hosts
        let target : ResolveTarget := { target with hosts := update.current_priority_hosts }
        let self : DnsClusterImpl β :=
          { self with resolve_targets := self.resolve_targets.set i target }
        let step : ResolveTarget × DnsClusterImpl β :=
          if update.changed then
            let target : ResolveTarget :=
              { target with
                all_hosts := updateHostMap target.all_hosts update.hosts_added update.hosts_removed }
            let self : DnsClusterImpl β :=
              { self with resolve_targets := self.resolve_targets.set i target }
            (target,
             self.updateAllHosts update.hosts_added update.hosts_removed
               target.locality_lb_endpoints.priority)
          else
            (target,
             { self with
               stats := { self.stats with update_no_rebuild := self.stats.update_no_rebuild + 1 } })
        let target := step.1
        let self := step.2
        let self : DnsClusterImpl β :=
          { self with
            failure_backoff_strategy := env.reset self.failure_backoff_strategy
            trace := self.trace ++ [Event.backoffReset] }
        let self : DnsClusterImpl β :=
          if self.dns_jitter_ms > 0 then { self with trace := self.trace ++ [Event.random] }
          else self
        finishRound self i target
          (successRefreshRate self.dns_refresh_rate_ms self.dns_jitter_ms self.respect_dns_ttl
            response locals.ttl_refresh_rate random)
    else
      let next := env.nextBackOffMs self.failure_backoff_strategy
      let self : DnsClusterImpl β :=
        { self with
          stats := { self.stats with update_failure := self.stats.update_failure + 1 }
          failure_backoff_strategy := next.2
          trace := self.trace ++ [Event.backoffNext] }
      finishRound self i target (msOfUint64 next.1)

/-- `DnsClusterImpl::ResolveTarget::startResolve` for target number `i`: count the attempt
and hand the query to the resolver; the timer that fired, if any, is spent. -/
def startResolve {β : Type} (self : DnsClusterImpl β) (i : Nat) : DnsClusterImpl β :=
  match self.resolve_targets[i]? with
  | none => self
  | some target =>
    { self with
      stats := { self.stats with update_attempt := self.stats.update_attempt + 1 }
      resolve_targets :=
        self.resolve_targets.set i { target with active_query := true, resolve_timer := none }
      trace := self.trace ++ [Event.resolve target.dns_address] }

/-- `DnsClusterImpl::startPreInit`. -/
def DnsClusterImpl.startPreInit {β : Type} (self : DnsClusterImpl β) : DnsClusterImpl β :=
  let self := (List.range self.resolve_targets.length).foldl startResolve self
  if self.resolve_targets.isEmpty || !self.wait_for_warm_on_init then
    { self with trace := self.trace ++ [Event.onPreInitComplete] }
  else self

/-! ## Observations used in the statements -/

/-- The delay the timer of target number `i` is armed with, if it is armed. -/
def armedDelay {β : Type} (self : DnsClusterImpl β) (i : Nat) : Option Int :=
  (self.resolve_targets[i]?).bind (fun target => target.resolve_timer)

/-- The address strings of a host list. -/
def addressStrings (hosts : HostVector) : List String := hosts.map (fun host => host.address.asString)

/-- The address strings of a response, each address given the port `port`. -/
def responseStrings (port : Nat) (response : List DnsResponse) : List String :=
  response.map (fun resp => (getAddressWithPort resp.address port).asString)

/-- The entries of a list that are the first of their key: every later entry whose key has
already occurred is removed, the order of the remaining entries is kept. -/
def firstOccurrences {α : Type} (key : α → String) : List α → List α
  | [] => []
  | x :: xs => x :: (firstOccurrences key xs).filter (fun y => key y != key x)

/-- The address string the round gives to a response entry of a target with port `port`. -/
def entryKey (port : Nat) (resp : DnsResponse) : String :=
  (getAddressWithPort resp.address port).asString

/-- The response entries that contribute a host to the round: in single-endpoint mode the
first entry only, otherwise the first occurrence of every distinct address string. -/
def contributingEntries (single : Bool) (port : Nat) (response : List DnsResponse) :
    List DnsResponse :=
  if single then response.take 1 else firstOccurrences (entryKey port) response

/-- The minimum of the TTLs of a list of entries, seen from `std::chrono::seconds::max()`. -/
def minTtl (entries : List DnsResponse) : Int :=
  entries.foldl (fun m resp => min m resp.ttl) secondsMax

/-- Host construction succeeds for every address of the response, whichever object identity
the new host receives. -/
def ConstructionSucceeds {β : Type} (env : Env β) (target : ResolveTarget)
    (response : List DnsResponse) : Prop :=
  ∀ resp ∈ response, ∀ uid : Nat,
    env.hostCreateError (HostImpl.new uid target (getAddressWithPort resp.address target.port)) = none

/-! ## A concrete environment -/

/-- Modelled from the spec: `BaseDynamicClusterImpl::updateDynamicHostList` is not part of
this translation unit. Following the host-set differ of the spec: a new address that is
absent from the previous map yields an added host; a previous host whose address is absent
from the new round is removed; an address in both keeps the previously constructed host;
the result is `changed` iff a host was added or removed. -/
def specUpdateDynamicHostList (new_hosts _current_priority_hosts : HostVector)
    (all_hosts : HostMap) (all_new_hosts : List String) : HostListUpdate :=
  let hosts_added :=
    new_hosts.filter (fun host => !all_hosts.any (fun kv => kv.1 == host.address.asString))
  let hosts_removed :=
    (all_hosts.map Prod.snd).filter (fun host => !all_new_hosts.contains host.address.asString)
  let final_hosts :=
    new_hosts.map (fun host =>
      match all_hosts.find? (fun kv => kv.1 == host.address.asString) with
      | some kv => kv.2
      | none => host)
  { changed := !hosts_added.isEmpty || !hosts_removed.isEmpty
    current_priority_hosts := final_hosts
    hosts_added := hosts_added
    hosts_removed := hosts_removed }

/-- An exponential back-off whose state is the number of failures since the last reset:
5000 ms doubled per failure, capped at 40000 ms. -/
def exampleEnv : Env Nat :=
  { nextBackOffMs := fun n => (min (5000 * 2 ^ n) 40000, n + 1)
    reset := fun _ => 0
    hostCreateError := fun _ => none
    updateDynamicHostList := specUpdateDynamicHostList
    validateEndpointsForZoneAwareRouting := fun _ => OkStatus }

/-- The environment `exampleEnv`, except that `HostImpl::create` rejects every host. -/
def rejectingEnv : Env Nat :=
  { exampleEnv with hostCreateError := fun _ => some "invalid health check address" }

/-- An endpoint `name:port` with weight 1 and no resolver name. -/
def exampleEndpoint (name : String) (port : Nat) : LbEndpoint :=
  { hostname := "", socket_address := ⟨name, port, ""⟩, metadata := "",
    load_balancing_weight := 1, health_check_config := "", health_status := 0 }

/-- A locality group at priority 0 with the given endpoints. -/
def exampleLocality (lb_endpoints : List LbEndpoint) : LocalityLbEndpoints :=
  { locality := "zone-a", priority := 0, metadata := "", lb_endpoints := lb_endpoints }

/-- A configuration with refresh rate 5000 ms, no jitter and TTLs respected. -/
def exampleConfig (single : Bool) (endpoints : List LocalityLbEndpoints) : ClusterConfig :=
  { endpoints := endpoints
    dns_refresh_rate_ms := 5000
    dns_jitter_ms := 0
    respect_dns_ttl := true
    all_addresses_in_single_endpoint := single
    wait_for_warm_on_init := true
    overprovisioning_factor := 140
    weighted_priority_health := false }

/-- The target built for the endpoint `foo.example:443` of `exampleLocality`. -/
def exampleTarget : ResolveTarget :=
  ResolveTarget.new "foo.example" 443
    (exampleLocality [exampleEndpoint "foo.example" 443]) (exampleEndpoint "foo.example" 443)

/-- The cluster the constructor builds from one locality group with the one endpoint
`foo.example:443`, with the given jitter bound. -/
def exampleCluster (single : Bool) (dns_jitter_ms : Int) : DnsClusterImpl Nat :=
  (DnsClusterImpl.ctor exampleEnv 0 OkStatus
    { exampleConfig single [exampleLocality [exampleEndpoint "foo.example" 443]] with
      dns_jitter_ms := dns_jitter_ms }).2

/-- A response entry for the IP `ip` with TTL `ttl` seconds. -/
def entry (ip : String) (ttl : Int) : DnsResponse := ⟨⟨ip, 0⟩, ttl⟩

/-- The entries at which the response loop builds a host when it starts with the address
strings `seen` already in `all_new_hosts`. -/
def keptFrom (single : Bool) (port : Nat) : List String → List DnsResponse → List DnsResponse
  | _, [] => []
  | seen, resp :: rest =>
    if entryKey port resp ∈ seen then keptFrom single port seen rest
    else if single then [resp]
    else resp :: keptFrom single port (seen ++ [entryKey port resp]) rest

/-! ## Reachable states and the contract of the differ -/

/-- The states of a cluster's life: `create` succeeds, `startPreInit` runs once, and from
then on a timer that is armed fires and runs `startResolve` on its target, or the resolver
delivers the completion callback of a query that is active. The flag tells whether
`startPreInit` has run. -/
inductive Reachable {β : Type} (env : Env β) : Bool → DnsClusterImpl β → Prop where
  | created (backoff : β) (base_status : Status) (cfg : ClusterConfig) (c : DnsClusterImpl β) :
      DnsClusterImpl.create env backoff base_status cfg = Except.ok c → Reachable env false c
  | preInit (c : DnsClusterImpl β) : Reachable env false c → Reachable env true c.startPreInit
  | timerFires (c : DnsClusterImpl β) (i : Nat) (target : ResolveTarget) :
      Reachable env true c → c.resolve_targets[i]? = some target →
      target.resolve_timer.isSome = true → Reachable env true (startResolve c i)
  | queryCompletes (c : DnsClusterImpl β) (i : Nat) (target : ResolveTarget)
      (status : ResolutionStatus) (response : List DnsResponse) (random : Nat) :
      Reachable env true c → c.resolve_targets[i]? = some target →
      target.active_query = true →
      Reachable env true (onResolveComplete env c i status response random)

/-- The differ invents no host: the hosts it leaves in the current list and the hosts it
reports as added are among the new hosts, the current hosts and the hosts of the map it
was given. -/
def DifferReturnsGivenHosts {β : Type} (env : Env β) : Prop :=
  ∀ (new_hosts current : HostVector) (all_hosts : HostMap) (all_new_hosts : List String)
    (host : Host),
    host ∈ (env.updateDynamicHostList new_hosts current all_hosts
        all_new_hosts).current_priority_hosts ∨
      host ∈ (env.updateDynamicHostList new_hosts current all_hosts all_new_hosts).hosts_added →
    host ∈ new_hosts ∨ host ∈ current ∨ host ∈ all_hosts.map Prod.snd

/-- The contract of the host-set differ: the added hosts are exactly the new-round hosts
whose address string is not a key of the previous map, the removed hosts are exactly the
previous map's hosts whose address string is absent from the new round, and the result is
`changed` exactly when a host was added or removed. -/
def DifferFollowsSpec {β : Type} (env : Env β) : Prop :=
  ∀ (new_hosts current : HostVector) (all_hosts : HostMap) (all_new_hosts : List String),
    (∀ host : Host,
      host ∈ (env.updateDynamicHostList new_hosts current all_hosts all_new_hosts).hosts_added ↔
        host ∈ new_hosts ∧ host.address.asString ∉ all_hosts.map Prod.fst) ∧
    (∀ host : Host,
      host ∈ (env.updateDynamicHostList new_hosts current all_hosts all_new_hosts).hosts_removed ↔
        host ∈ all_hosts.map Prod.snd ∧ host.address.asString ∉ all_new_hosts) ∧
    ((env.updateDynamicHostList new_hosts current all_hosts all_new_hosts).changed = true ↔
      (env.updateDynamicHostList new_hosts current all_hosts all_new_hosts).hosts_added ≠ [] ∨
      (env.updateDynamicHostList new_hosts current all_hosts all_new_hosts).hosts_removed ≠ [])

/-- A host map is well formed when its keys are distinct and every key is the address
string of the host it maps to. -/
def HostMap.WellFormed (m : HostMap) : Prop :=
  (m.map Prod.fst).Nodup ∧ ∀ kv ∈ m, kv.2.address.asString = kv.1

/-- The result of `updateDynamicHostList` in the round of `target` with loop locals `locals`. -/
def roundUpdate {β : Type} (env : Env β) (target : ResolveTarget) (locals : RoundLocals) :
    HostListUpdate :=
  env.updateDynamicHostList locals.new_hosts target.hosts target.all_hosts locals.all_new_hosts

/-- The target after the host lists of a successful round are brought up to date, before
its timer is re-armed. -/
def targetAfterUpdate (target : ResolveTarget) (update : HostListUpdate) : ResolveTarget :=
  { target with
    active_query := false
    hosts := update.current_priority_hosts
    all_hosts :=
      if update.changed then
        updateHostMap target.all_hosts update.hosts_added update.hosts_removed
      else target.all_hosts }

/-- A target as the constructor leaves it: no host, no query in flight, timer disarmed. -/
def ResolveTarget.Idle (target : ResolveTarget) : Prop :=
  target.hosts = [] ∧ target.all_hosts = [] ∧ target.active_query = false ∧
    target.resolve_timer = none

/-- The hosts and the map of a target carry the priority of the target's locality group. -/
def ResolveTarget.HostsHavePriority (target : ResolveTarget) : Prop :=
  (∀ host ∈ target.hosts, host.priority = target.locality_lb_endpoints.priority) ∧
    ∀ kv ∈ target.all_hosts, kv.2.priority = target.locality_lb_endpoints.priority

/-! ## The response loop -/

theorem keptFrom_false_eq (port : Nat) (response : List DnsResponse) :
    ∀ seen : List String,
      keptFrom false port seen response =
        (firstOccurrences (entryKey port) response).filter
          (fun resp => decide (entryKey port resp ∉ seen)) := by
  induction response with
  | nil => intro seen; simp [keptFrom, firstOccurrences]
  | cons resp rest ih =>
    intro seen
    by_cases h : entryKey port resp ∈ seen
    · simp only [keptFrom, h, if_true, firstOccurrences, ih seen]
      rw [List.filter_cons_of_neg (by simpa using h), List.filter_filter]
      apply List.filter_congr
      intro y _
      by_cases hy : entryKey port y ∈ seen
      · simp [hy]
      · have : entryKey port y ≠ entryKey port resp := fun e => hy (e ▸ h)
        simp [hy, this]
    · simp only [keptFrom, h, if_false, firstOccurrences, ih (seen ++ [entryKey port resp])]
      rw [List.filter_cons_of_pos (by simpa using h), List.filter_filter]
      simp only [Bool.false_eq_true, if_false]
      congr 1
      apply List.filter_congr
      intro y _
      by_cases hy : entryKey port y ∈ seen <;> by_cases hk : entryKey port y = entryKey port resp <;>
        simp [hy, hk]

theorem keptFrom_nil_seen (single : Bool) (port : Nat) (response : List DnsResponse) :
    keptFrom single port [] response = contributingEntries single port response := by
  cases single with
  | false => simp [contributingEntries, keptFrom_false_eq]
  | true => cases response <;> simp [contributingEntries, keptFrom]

theorem firstOccurrences_map_key {α : Type} (key : α → String) (l : List α) :
    (firstOccurrences key l).map key = firstOccurrences id (l.map key) := by
  induction l with
  | nil => simp [firstOccurrences]
  | cons x xs ih =>
    simp only [firstOccurrences, List.map_cons, id_eq, ← ih, List.filter_map]
    rfl

theorem mem_firstOccurrences {α : Type} (key : α → String) (l : List α) (k : String) :
    k ∈ (firstOccurrences key l).map key ↔ k ∈ l.map key := by
  induction l with
  | nil => simp [firstOccurrences]
  | cons x xs ih =>
    simp only [firstOccurrences, List.map_cons, List.mem_cons]
    constructor
    · rintro (h | h)
      · exact Or.inl h
      · right
        apply ih.mp
        simp only [List.mem_map, List.mem_filter] at h ⊢
        obtain ⟨y, ⟨hy, _⟩, rfl⟩ := h
        exact ⟨y, hy, rfl⟩
    · rintro (h | h)
      · exact Or.inl h
      · by_cases hk : k = key x
        · exact Or.inl hk
        · right
          have := ih.mpr h
          simp only [List.mem_map, List.mem_filter] at this ⊢
          obtain ⟨y, hy, rfl⟩ := this
          exact ⟨y, ⟨hy, by simpa using hk⟩, rfl⟩

theorem nodup_firstOccurrences {α : Type} (key : α → String) (l : List α) :
    ((firstOccurrences key l).map key).Nodup := by
  induction l with
  | nil => simp [firstOccurrences]
  | cons x xs ih =>
    simp only [firstOccurrences, List.map_cons, List.nodup_cons]
    constructor
    · simp only [List.mem_map, List.mem_filter, not_exists, not_and]
      intro y hy
      simpa using hy.2
    · exact List.Nodup.sublist (List.Sublist.map key (List.filter_sublist _)) ih

/-- The response loop returns whenever host construction succeeds for every address, and
its locals are then determined by the entries `keptFrom` selects. -/
theorem responseLoop_ok {β : Type} (env : Env β) (single : Bool) (target : ResolveTarget)
    (response : List DnsResponse) (hc : ConstructionSucceeds env target response) :
    ∀ locals : RoundLocals, ∃ out : RoundLocals,
      responseLoop env single target response locals = Except.ok out ∧
      out.new_hosts.map (fun host => host.address) =
        locals.new_hosts.map (fun host => host.address) ++
          (keptFrom single target.port locals.all_new_hosts response).map
            (fun resp => getAddressWithPort resp.address target.port) ∧
      out.all_new_hosts =
        locals.all_new_hosts ++
          (keptFrom single target.port locals.all_new_hosts response).map (entryKey target.port) ∧
      out.ttl_refresh_rate =
        (keptFrom single target.port locals.all_new_hosts response).foldl
          (fun m resp => min m resp.ttl) locals.ttl_refresh_rate := by
  induction response with
  | nil => intro locals; exact ⟨locals, by simp [responseLoop, keptFrom]⟩
  | cons resp rest ih =>
    have hrest : ConstructionSucceeds env target rest :=
      fun r hr uid => hc r (List.mem_cons_of_mem _ hr) uid
    have hhead := hc resp (List.mem_cons_self _ _)
    intro locals
    by_cases hseen : entryKey target.port resp ∈ locals.all_new_hosts
    · obtain ⟨out, h1, h2, h3, h4⟩ := ih hrest locals
      refine ⟨out, ?_, ?_, ?_, ?_⟩
      · have hseen' := hseen
        simp only [entryKey] at hseen'
        simp only [responseLoop, hseen', if_true, h1]
      · simpa only [keptFrom, hseen, if_true] using h2
      · simpa only [keptFrom, hseen, if_true] using h3
      · simpa only [keptFrom, hseen, if_true] using h4
    · have hseen' := hseen
      simp only [entryKey] at hseen'
      cases single with
      | true =>
        refine ⟨{ new_hosts := locals.new_hosts ++
                    [HostImpl.new locals.next_host_uid target
                      (getAddressWithPort resp.address target.port)]
                  ttl_refresh_rate := min locals.ttl_refresh_rate resp.ttl
                  all_new_hosts :=
                    locals.all_new_hosts ++ [(getAddressWithPort resp.address target.port).asString]
                  next_host_uid := locals.next_host_uid + 1 }, ?_, ?_, ?_, ?_⟩
        · simp only [responseLoop, hseen', if_false, HostImpl.create, hhead locals.next_host_uid,
            if_true]
        · simp [keptFrom, hseen, HostImpl.new]
        · simp only [keptFrom, hseen, if_false, if_true, List.map_cons, List.map_nil]
          rfl
        · simp [keptFrom, hseen]
      | false =>
        obtain ⟨out, h1, h2, h3, h4⟩ := ih hrest
          { new_hosts := locals.new_hosts ++
              [HostImpl.new locals.next_host_uid target
                (getAddressWithPort resp.address target.port)]
            ttl_refresh_rate := min locals.ttl_refresh_rate resp.ttl
            all_new_hosts :=
              locals.all_new_hosts ++ [(getAddressWithPort resp.address target.port).asString]
            next_host_uid := locals.next_host_uid + 1 }
        refine ⟨out, ?_, ?_, ?_, ?_⟩
        · simp only [responseLoop, hseen', if_false, HostImpl.create, hhead locals.next_host_uid,
            Bool.false_eq_true, h1]
        · simp only [keptFrom, hseen, if_false, Bool.false_eq_true]
          simpa [entryKey, HostImpl.new] using h2
        · simp only [keptFrom, hseen, if_false, Bool.false_eq_true]
          simpa [entryKey] using h3
        · simp only [keptFrom, hseen, if_false, Bool.false_eq_true]
          simpa [entryKey] using h4

/-! ## Classification of a response -/

/-- C1: `isSuccessfulResponse` is true exactly when the status is Completed and, in
single-endpoint mode, the response list is non-empty; in particular an empty Completed
response is successful when the cluster is not in single-endpoint mode. -/
theorem isSuccessfulResponse_iff (single : Bool) (response : List DnsResponse)
    (status : ResolutionStatus) :
    (ResolveTarget.isSuccessfulResponse single response status = true ↔
      status = ResolutionStatus.Completed ∧ (single = false ∨ response ≠ [])) ∧
    ResolveTarget.isSuccessfulResponse false [] ResolutionStatus.Completed = true := by
  refine ⟨?_, rfl⟩
  cases single <;> cases status <;> cases response <;>
    simp [ResolveTarget.isSuccessfulResponse]

/-! ## The hosts of a round -/

/-- C2: in a round that is not in single-endpoint mode and in which host construction
succeeds for every address, the response loop returns, the address strings of `new_hosts`
are the response's addresses (each with the target's port) with every later duplicate
removed and the order of first occurrences kept, no two of them are equal, and
`all_new_hosts` holds exactly those strings. -/
theorem new_hosts_are_first_occurrences {β : Type} (env : Env β) (target : ResolveTarget)
    (response : List DnsResponse) (next_host_uid : Nat)
    (hc : ConstructionSucceeds env target response) :
    ∃ locals : RoundLocals,
      responseLoop env false target response (RoundLocals.init next_host_uid) = Except.ok locals ∧
      addressStrings locals.new_hosts = firstOccurrences id (responseStrings target.port response) ∧
      (addressStrings locals.new_hosts).Nodup ∧
      (∀ s : String, s ∈ locals.all_new_hosts ↔ s ∈ addressStrings locals.new_hosts) ∧
      (∀ s : String, s ∈ locals.all_new_hosts ↔ s ∈ responseStrings target.port response) := by
  obtain ⟨locals, h1, h2, h3, _⟩ :=
    responseLoop_ok env false target response hc (RoundLocals.init next_host_uid)
  have hkeys : addressStrings locals.new_hosts =
      (firstOccurrences (entryKey target.port) response).map (entryKey target.port) := by
    have := congrArg (List.map Address.asString) h2
    simpa [addressStrings, RoundLocals.init, keptFrom_nil_seen, contributingEntries, entryKey,
      List.map_map, Function.comp_def] using this
  have hset : locals.all_new_hosts =
      (firstOccurrences (entryKey target.port) response).map (entryKey target.port) := by
    simpa [RoundLocals.init, keptFrom_nil_seen, contributingEntries] using h3
  have hresp : responseStrings target.port response = response.map (entryKey target.port) := rfl
  refine ⟨locals, h1, ?_, ?_, ?_, ?_⟩
  · rw [hkeys, hresp, firstOccurrences_map_key]
  · rw [hkeys]; exact nodup_firstOccurrences _ _
  · intro s; rw [hkeys, hset]
  · intro s; rw [hset, hresp]; exact mem_firstOccurrences _ _ _

/-- Witness of C2: the response 10.0.0.1, 10.0.0.1, 10.0.0.2 for the target with port 443. -/
theorem new_hosts_are_first_occurrences_witness :
    ∃ locals : RoundLocals,
      responseLoop exampleEnv false exampleTarget
          [entry "10.0.0.1" 30, entry "10.0.0.1" 10, entry "10.0.0.2" 40]
          (RoundLocals.init 0) = Except.ok locals ∧
      addressStrings locals.new_hosts =
        firstOccurrences id
          (responseStrings exampleTarget.port
            [entry "10.0.0.1" 30, entry "10.0.0.1" 10, entry "10.0.0.2" 40]) ∧
      (addressStrings locals.new_hosts).Nodup ∧
      (∀ s : String, s ∈ locals.all_new_hosts ↔ s ∈ addressStrings locals.new_hosts) ∧
      (∀ s : String, s ∈ locals.all_new_hosts ↔
        s ∈ responseStrings exampleTarget.port
          [entry "10.0.0.1" 30, entry "10.0.0.1" 10, entry "10.0.0.2" 40]) :=
  new_hosts_are_first_occurrences exampleEnv exampleTarget
    [entry "10.0.0.1" 30, entry "10.0.0.1" 10, entry "10.0.0.2" 40] 0
    (fun _ _ _ => rfl)

/-- C3: in single-endpoint mode, for a successful (hence non-empty) response of any length
whose first address can be built into a host, the response loop returns and `new_hosts`
holds exactly one host, whose address is the first address of the response with the
target's port. -/
theorem single_endpoint_keeps_first_address {β : Type} (env : Env β) (target : ResolveTarget)
    (response : List DnsResponse) (status : ResolutionStatus) (next_host_uid : Nat)
    (hs : ResolveTarget.isSuccessfulResponse true response status = true)
    (hc : ConstructionSucceeds env target (response.take 1)) :
    ∃ (locals : RoundLocals) (host : Host),
      responseLoop env true target response (RoundLocals.init next_host_uid) = Except.ok locals ∧
      locals.new_hosts = [host] ∧
      locals.new_hosts.length = 1 ∧
      response.head?.map (fun resp => getAddressWithPort resp.address target.port) =
        some host.address := by
  cases response with
  | nil => cases status <;> simp [ResolveTarget.isSuccessfulResponse] at hs
  | cons resp rest =>
    have hhead := hc resp (by simp) next_host_uid
    refine ⟨{ new_hosts :=
                [HostImpl.new next_host_uid target (getAddressWithPort resp.address target.port)]
              ttl_refresh_rate := min secondsMax resp.ttl
              all_new_hosts := [(getAddressWithPort resp.address target.port).asString]
              next_host_uid := next_host_uid + 1 },
      HostImpl.new next_host_uid target (getAddressWithPort resp.address target.port),
      ?_, rfl, rfl, ?_⟩
    · simp [responseLoop, RoundLocals.init, HostImpl.create, hhead]
    · simp [HostImpl.new]

/-- Witness of C3: a response of three addresses yields the one host 10.0.0.1:443. -/
theorem single_endpoint_keeps_first_address_witness :
    ∃ (locals : RoundLocals) (host : Host),
      responseLoop exampleEnv true exampleTarget
          [entry "10.0.0.1" 30, entry "10.0.0.2" 10, entry "10.0.0.3" 40]
          (RoundLocals.init 0) = Except.ok locals ∧
      locals.new_hosts = [host] ∧
      locals.new_hosts.length = 1 ∧
      ([entry "10.0.0.1" 30, entry "10.0.0.2" 10, entry "10.0.0.3" 40].head?.map
          (fun resp => getAddressWithPort resp.address exampleTarget.port)) =
        some host.address :=
  single_endpoint_keeps_first_address exampleEnv exampleTarget
    [entry "10.0.0.1" 30, entry "10.0.0.2" 10, entry "10.0.0.3" 40]
    ResolutionStatus.Completed 0 (by decide) (fun _ _ _ => rfl)

/-! ## The three ways through the completion callback -/

theorem armedDelay_finishRound {β : Type} (self : DnsClusterImpl β) (i : Nat)
    (target : ResolveTarget) (d : Int) (h : i < self.resolve_targets.length) :
    armedDelay (finishRound self i target d) i = some d := by
  simp [armedDelay, finishRound, List.getElem?_set, h]

theorem lt_length_of_getElem? {α : Type} {l : List α} {i : Nat} {a : α}
    (h : l[i]? = some a) : i < l.length := by
  by_contra hn
  rw [List.getElem?_eq_none (Nat.le_of_not_lt hn)] at h
  cases h

/-- The failure branch: one call of `nextBackOffMs`, then the common tail. -/
theorem onResolveComplete_failure {β : Type} (env : Env β) (self : DnsClusterImpl β) (i : Nat)
    (target : ResolveTarget) (status : ResolutionStatus) (response : List DnsResponse)
    (random : Nat) (ht : self.resolve_targets[i]? = some target)
    (hs : ResolveTarget.isSuccessfulResponse self.all_addresses_in_single_endpoint response
      status = false) :
    onResolveComplete env self i status response random =
      finishRound
        { self with
          stats := { self.stats with update_failure := self.stats.update_failure + 1 }
          failure_backoff_strategy := (env.nextBackOffMs self.failure_backoff_strategy).2
          trace := self.trace ++ [Event.backoffNext] }
        i { target with active_query := false }
        (msOfUint64 (env.nextBackOffMs self.failure_backoff_strategy).1) := by
  simp [onResolveComplete, ht, hs]

/-- The branch in which `HostImpl::create` fails: the callback returns from inside the
success branch. -/
theorem onResolveComplete_abort {β : Type} (env : Env β) (self : DnsClusterImpl β) (i : Nat)
    (target : ResolveTarget) (status : ResolutionStatus) (response : List DnsResponse)
    (random : Nat) (e : String) (ht : self.resolve_targets[i]? = some target)
    (hs : ResolveTarget.isSuccessfulResponse self.all_addresses_in_single_endpoint response
      status = true)
    (hl : responseLoop env self.all_addresses_in_single_endpoint
      { target with active_query := false } response (RoundLocals.init self.next_host_uid) =
        Except.error e) :
    onResolveComplete env self i status response random =
      { self with
        stats :=
          { self.stats with
            update_success := self.stats.update_success + 1
            update_failure := self.stats.update_failure + 1 }
        resolve_targets := self.resolve_targets.set i { target with active_query := false } } := by
  simp [onResolveComplete, ht, hs, hl]

/-- The success branch ends in the common tail, with the refresh rate computed from the
TTL the response loop recorded. -/
theorem onResolveComplete_success {β : Type} (env : Env β) (self : DnsClusterImpl β) (i : Nat)
    (target : ResolveTarget) (status : ResolutionStatus) (response : List DnsResponse)
    (random : Nat) (locals : RoundLocals) (ht : self.resolve_targets[i]? = some target)
    (hs : ResolveTarget.isSuccessfulResponse self.all_addresses_in_single_endpoint response
      status = true)
    (hl : responseLoop env self.all_addresses_in_single_endpoint
      { target with active_query := false } response (RoundLocals.init self.next_host_uid) =
        Except.ok locals) :
    ∃ (before : DnsClusterImpl β) (target' : ResolveTarget),
      onResolveComplete env self i status response random =
        finishRound before i target'
          (successRefreshRate self.dns_refresh_rate_ms self.dns_jitter_ms self.respect_dns_ttl
            response locals.ttl_refresh_rate random) ∧
      before.resolve_targets.length = self.resolve_targets.length := by
  simp only [onResolveComplete, ht, hs, hl, if_true]
  by_cases hch : (env.updateDynamicHostList locals.new_hosts target.hosts target.all_hosts
      locals.all_new_hosts).changed = true <;>
    by_cases hj : self.dns_jitter_ms > 0 <;>
    simp only [hch, hj, if_true, if_false, DnsClusterImpl.updateAllHosts, Bool.false_eq_true] <;>
    exact ⟨_, _, rfl, by simp⟩

/-! ## The refresh rate of a successful round -/

theorem int64Wrap_of_range (x : Int) (h1 : -(2 ^ 63) ≤ x) (h2 : x < 2 ^ 63) : int64Wrap x = x := by
  unfold int64Wrap
  rw [Int.emod_eq_of_lt (by omega) (by omega)]
  omega

/-- In a successful round in which host construction succeeds for every address, the timer
is armed with `successRefreshRate` of the minimum TTL of the contributing entries. -/
theorem armedDelay_success {β : Type} (env : Env β) (self : DnsClusterImpl β) (i : Nat)
    (target : ResolveTarget) (status : ResolutionStatus) (response : List DnsResponse)
    (random : Nat) (ht : self.resolve_targets[i]? = some target)
    (hs : ResolveTarget.isSuccessfulResponse self.all_addresses_in_single_endpoint response
      status = true)
    (hc : ConstructionSucceeds env target response) :
    armedDelay (onResolveComplete env self i status response random) i =
      some (successRefreshRate self.dns_refresh_rate_ms self.dns_jitter_ms self.respect_dns_ttl
        response
        (minTtl (contributingEntries self.all_addresses_in_single_endpoint target.port response))
        random) := by
  obtain ⟨locals, hl, _, _, httl⟩ :=
    responseLoop_ok env self.all_addresses_in_single_endpoint
      { target with active_query := false } response hc (RoundLocals.init self.next_host_uid)
  obtain ⟨before, target', hrun, hlen⟩ :=
    onResolveComplete_success env self i target status response random locals ht hs hl
  have hmin : locals.ttl_refresh_rate =
      minTtl (contributingEntries self.all_addresses_in_single_endpoint target.port response) := by
    rw [httl]
    simp only [RoundLocals.init, keptFrom_nil_seen, minTtl]
  rw [hrun, armedDelay_finishRound _ _ _ _ (hlen ▸ lt_length_of_getElem? ht), hmin]

/-- C4 as stated fails. With TTLs respected and no jitter, in single-endpoint mode the
successful response 10.0.0.1 (TTL 30 s), 10.0.0.2 (TTL 10 s) has minimum TTL 10 s over all
its entries, yet the timer is armed with 30000 ms: the loop stops after the first entry.
Outside single-endpoint mode the response 10.0.0.1 (TTL 30 s), 10.0.0.1 (TTL 10 s) is armed
with 30000 ms as well: the TTL of the skipped duplicate is not looked at. -/
theorem min_ttl_over_all_entries_counterexample :
    (ResolveTarget.isSuccessfulResponse
        (startResolve (exampleCluster true 0) 0).all_addresses_in_single_endpoint
        [entry "10.0.0.1" 30, entry "10.0.0.2" 10] ResolutionStatus.Completed = true ∧
      (startResolve (exampleCluster true 0) 0).respect_dns_ttl = true ∧
      (startResolve (exampleCluster true 0) 0).dns_jitter_ms = 0 ∧
      minTtl [entry "10.0.0.1" 30, entry "10.0.0.2" 10] = 10 ∧
      armedDelay
          (onResolveComplete exampleEnv (startResolve (exampleCluster true 0) 0) 0
            ResolutionStatus.Completed [entry "10.0.0.1" 30, entry "10.0.0.2" 10] 0) 0 =
        some 30000 ∧
      armedDelay
          (onResolveComplete exampleEnv (startResolve (exampleCluster true 0) 0) 0
            ResolutionStatus.Completed [entry "10.0.0.1" 30, entry "10.0.0.2" 10] 0) 0 ≠
        some (secondsToMs (minTtl [entry "10.0.0.1" 30, entry "10.0.0.2" 10]))) ∧
    (ResolveTarget.isSuccessfulResponse
        (startResolve (exampleCluster false 0) 0).all_addresses_in_single_endpoint
        [entry "10.0.0.1" 30, entry "10.0.0.1" 10] ResolutionStatus.Completed = true ∧
      (startResolve (exampleCluster false 0) 0).respect_dns_ttl = true ∧
      (startResolve (exampleCluster false 0) 0).dns_jitter_ms = 0 ∧
      minTtl [entry "10.0.0.1" 30, entry "10.0.0.1" 10] = 10 ∧
      armedDelay
          (onResolveComplete exampleEnv (startResolve (exampleCluster false 0) 0) 0
            ResolutionStatus.Completed [entry "10.0.0.1" 30, entry "10.0.0.1" 10] 0) 0 =
        some 30000 ∧
      armedDelay
          (onResolveComplete exampleEnv (startResolve (exampleCluster false 0) 0) 0
            ResolutionStatus.Completed [entry "10.0.0.1" 30, entry "10.0.0.1" 10] 0) 0 ≠
        some (secondsToMs (minTtl [entry "10.0.0.1" 30, entry "10.0.0.1" 10]))) := by
  decide

/-- C4, amended: in a successful round with jitter bound 0 in which host construction
succeeds for every address, the timer is re-armed with the minimum TTL, in milliseconds,
over the entries that contribute a host (the first occurrence of each distinct address
string; in single-endpoint mode the first entry only) when TTLs are respected, the response
is non-empty and that minimum is nonzero; otherwise with the configured refresh rate. -/
theorem refresh_rate_without_jitter {β : Type} (env : Env β) (self : DnsClusterImpl β) (i : Nat)
    (target : ResolveTarget) (status : ResolutionStatus) (response : List DnsResponse)
    (random : Nat) (ht : self.resolve_targets[i]? = some target)
    (hs : ResolveTarget.isSuccessfulResponse self.all_addresses_in_single_endpoint response
      status = true)
    (hc : ConstructionSucceeds env target response)
    (hj : self.dns_jitter_ms = 0) :
    armedDelay (onResolveComplete env self i status response random) i =
      some
        (if self.respect_dns_ttl = true ∧ response ≠ [] ∧
            minTtl (contributingEntries self.all_addresses_in_single_endpoint target.port
              response) ≠ 0
          then
            secondsToMs
              (minTtl (contributingEntries self.all_addresses_in_single_endpoint target.port
                response))
          else self.dns_refresh_rate_ms) := by
  rw [armedDelay_success env self i target status response random ht hs hc]
  congr 1
  simp only [successRefreshRate, hj, gt_iff_lt, lt_self_iff_false, if_false, ttlOrConfiguredRate]
  cases hr : self.respect_dns_ttl <;> cases response <;> simp

/-- Witness of C4, amended: TTLs 30 s and 40 s with TTLs respected give 30000 ms, not the
configured 5000 ms. -/
theorem refresh_rate_without_jitter_witness :
    armedDelay
        (onResolveComplete exampleEnv (startResolve (exampleCluster false 0) 0) 0
          ResolutionStatus.Completed [entry "10.0.0.1" 30, entry "10.0.0.2" 40] 0) 0 =
      some 30000 := by
  have h := refresh_rate_without_jitter exampleEnv (startResolve (exampleCluster false 0) 0) 0
    { exampleTarget with active_query := true } ResolutionStatus.Completed
    [entry "10.0.0.1" 30, entry "10.0.0.2" 40] 0 (by decide) (by decide) (fun _ _ _ => rfl)
    (by decide)
  rw [h]
  decide

theorem foldl_min_ttl_cases (l : List DnsResponse) :
    ∀ a : Int, l.foldl (fun m resp => min m resp.ttl) a = a ∨
      ∃ resp ∈ l, l.foldl (fun m resp => min m resp.ttl) a = resp.ttl := by
  induction l with
  | nil => intro a; exact Or.inl rfl
  | cons x xs ih =>
    intro a
    simp only [List.foldl_cons]
    rcases ih (min a x.ttl) with h | ⟨r, hr, h⟩
    · rcases min_choice a x.ttl with hm | hm
      · left; rw [h, hm]
      · right; exact ⟨x, List.mem_cons_self _ _, by rw [h, hm]⟩
    · right; exact ⟨r, List.mem_cons_of_mem _ hr, h⟩

theorem foldl_min_ttl_le (l : List DnsResponse) :
    ∀ a : Int, l.foldl (fun m resp => min m resp.ttl) a ≤ a ∧
      ∀ resp ∈ l, l.foldl (fun m resp => min m resp.ttl) a ≤ resp.ttl := by
  induction l with
  | nil => intro a; simp
  | cons x xs ih =>
    intro a
    simp only [List.foldl_cons]
    obtain ⟨h1, h2⟩ := ih (min a x.ttl)
    refine ⟨le_trans h1 (min_le_left _ _), ?_⟩
    intro r hr
    rcases List.mem_cons.mp hr with rfl | hr
    · exact le_trans h1 (min_le_right _ _)
    · exact h2 r hr

theorem firstOccurrences_subset {α : Type} (key : α → String) (l : List α) :
    ∀ x ∈ firstOccurrences key l, x ∈ l := by
  induction l with
  | nil => simp [firstOccurrences]
  | cons y ys ih =>
    intro x hx
    simp only [firstOccurrences, List.mem_cons, List.mem_filter] at hx
    rcases hx with rfl | ⟨hx, _⟩
    · exact List.mem_cons_self _ _
    · exact List.mem_cons_of_mem _ (ih x hx)

theorem contributingEntries_subset (single : Bool) (port : Nat) (response : List DnsResponse) :
    ∀ resp ∈ contributingEntries single port response, resp ∈ response := by
  intro resp h
  cases single with
  | true => exact List.mem_of_mem_take (by simpa [contributingEntries] using h)
  | false => exact firstOccurrences_subset _ _ _ (by simpa [contributingEntries] using h)

theorem contributingEntries_ne_nil (single : Bool) (port : Nat) (response : List DnsResponse)
    (h : response ≠ []) : contributingEntries single port response ≠ [] := by
  cases response with
  | nil => exact absurd rfl h
  | cons x xs => cases single <;> simp [contributingEntries, firstOccurrences]

/-- With TTLs in `[0, 2^52)` and a configured rate in `[0, 2^62)`, the rate chosen before
jitter is in `[0, 2^62)`. -/
theorem ttlOrConfiguredRate_range (dns_refresh_rate_ms : Int) (respect_dns_ttl single : Bool)
    (port : Nat) (response : List DnsResponse)
    (hrate : 0 ≤ dns_refresh_rate_ms ∧ dns_refresh_rate_ms < 2 ^ 62)
    (httl : ∀ resp ∈ response, 0 ≤ resp.ttl ∧ resp.ttl < 2 ^ 52) :
    0 ≤ ttlOrConfiguredRate dns_refresh_rate_ms respect_dns_ttl response
        (minTtl (contributingEntries single port response)) ∧
      ttlOrConfiguredRate dns_refresh_rate_ms respect_dns_ttl response
        (minTtl (contributingEntries single port response)) < 2 ^ 62 := by
  unfold ttlOrConfiguredRate
  split
  · rename_i hcond
    have hne : response ≠ [] := by
      intro h; subst h; simp at hcond
    obtain ⟨r0, hr0⟩ := List.exists_mem_of_ne_nil _ (contributingEntries_ne_nil single port response hne)
    have hle := (foldl_min_ttl_le (contributingEntries single port response) secondsMax).2 r0 hr0
    have hr0b := httl r0 (contributingEntries_subset single port response r0 hr0)
    have hnonneg : 0 ≤ minTtl (contributingEntries single port response) := by
      rcases foldl_min_ttl_cases (contributingEntries single port response) secondsMax with h | ⟨r, hr, h⟩
      · unfold minTtl; rw [h]; unfold secondsMax; norm_num
      · unfold minTtl; rw [h]
        exact (httl r (contributingEntries_subset single port response r hr)).1
    have hlt : minTtl (contributingEntries single port response) < 2 ^ 52 :=
      lt_of_le_of_lt hle hr0b.2
    unfold secondsToMs
    rw [int64Wrap_of_range _ (by omega) (by omega)]
    omega
  · exact hrate

theorem jitterOffset_range (dns_jitter_ms : Int) (random : Nat)
    (hJ : 0 < dns_jitter_ms ∧ dns_jitter_ms < 2 ^ 62) :
    jitterOffset dns_jitter_ms random = (((random % 2 ^ 64) % dns_jitter_ms.toNat : Nat) : Int) ∧
      0 ≤ jitterOffset dns_jitter_ms random ∧ jitterOffset dns_jitter_ms random < dns_jitter_ms := by
  have hu : uint64Wrap dns_jitter_ms = dns_jitter_ms.toNat := by
    unfold uint64Wrap
    rw [Int.emod_eq_of_lt (by omega) (by omega)]
  have hpos : 0 < dns_jitter_ms.toNat := by omega
  have hlt : (random % 2 ^ 64) % dns_jitter_ms.toNat < dns_jitter_ms.toNat := Nat.mod_lt _ hpos
  have hcast : ((dns_jitter_ms.toNat : Nat) : Int) = dns_jitter_ms := Int.toNat_of_nonneg (by omega)
  have hsmall : (random % 2 ^ 64) % dns_jitter_ms.toNat % 2 ^ 64 =
      (random % 2 ^ 64) % dns_jitter_ms.toNat := Nat.mod_eq_of_lt (by omega)
  have heq : jitterOffset dns_jitter_ms random =
      (((random % 2 ^ 64) % dns_jitter_ms.toNat : Nat) : Int) := by
    unfold jitterOffset msOfUint64
    rw [hu, hsmall, int64Wrap_of_range _ (by omega) (by omega)]
  refine ⟨heq, ?_, ?_⟩
  · rw [heq]; omega
  · rw [heq]; omega

/-- C5: in a successful round with jitter bound J > 0 in which host construction succeeds
for every address, where the configured durations lie in `[0, 2^62)` ms and the TTLs in
`[0, 2^52)` s, for every value of the random source the jitter offset is
`(random mod 2^64) mod J`, lies in `[0, J)`, and the timer is re-armed with
`base + offset`, so `base <= delay < base + J` and the delay is not negative; `base` is the
TTL-or-configured rate the round chooses. -/
theorem jitter_bounds {β : Type} (env : Env β) (self : DnsClusterImpl β) (i : Nat)
    (target : ResolveTarget) (status : ResolutionStatus) (response : List DnsResponse)
    (random : Nat) (ht : self.resolve_targets[i]? = some target)
    (hs : ResolveTarget.isSuccessfulResponse self.all_addresses_in_single_endpoint response
      status = true)
    (hc : ConstructionSucceeds env target response)
    (hJ : 0 < self.dns_jitter_ms ∧ self.dns_jitter_ms < 2 ^ 62)
    (hrate : 0 ≤ self.dns_refresh_rate_ms ∧ self.dns_refresh_rate_ms < 2 ^ 62)
    (httl : ∀ resp ∈ response, 0 ≤ resp.ttl ∧ resp.ttl < 2 ^ 52) :
    jitterOffset self.dns_jitter_ms random =
        (((random % 2 ^ 64) % self.dns_jitter_ms.toNat : Nat) : Int) ∧
      0 ≤ jitterOffset self.dns_jitter_ms random ∧
      jitterOffset self.dns_jitter_ms random < self.dns_jitter_ms ∧
      ∃ delay : Int,
        armedDelay (onResolveComplete env self i status response random) i = some delay ∧
        delay =
          ttlOrConfiguredRate self.dns_refresh_rate_ms self.respect_dns_ttl response
              (minTtl (contributingEntries self.all_addresses_in_single_endpoint target.port
                response)) +
            jitterOffset self.dns_jitter_ms random ∧
        ttlOrConfiguredRate self.dns_refresh_rate_ms self.respect_dns_ttl response
            (minTtl (contributingEntries self.all_addresses_in_single_endpoint target.port
              response)) ≤ delay ∧
        delay <
          ttlOrConfiguredRate self.dns_refresh_rate_ms self.respect_dns_ttl response
              (minTtl (contributingEntries self.all_addresses_in_single_endpoint target.port
                response)) +
            self.dns_jitter_ms ∧
        0 ≤ delay := by
  obtain ⟨hoff, hoff0, hoffJ⟩ := jitterOffset_range self.dns_jitter_ms random hJ
  obtain ⟨hb0, hb1⟩ := ttlOrConfiguredRate_range self.dns_refresh_rate_ms self.respect_dns_ttl
    self.all_addresses_in_single_endpoint target.port response hrate httl
  refine ⟨hoff, hoff0, hoffJ, _, armedDelay_success env self i target status response random ht hs hc,
    ?_, ?_, ?_, ?_⟩
  all_goals
    simp only [successRefreshRate, hJ.1, gt_iff_lt, if_true]
    rw [int64Wrap_of_range _ (by omega) (by omega)]
  all_goals omega

/-- Witness of C5: jitter bound 1000 ms, TTL 30 s, random value 123456789. -/
theorem jitter_bounds_witness :
    ∃ delay : Int,
      armedDelay
          (onResolveComplete exampleEnv (startResolve (exampleCluster false 1000) 0) 0
            ResolutionStatus.Completed [entry "10.0.0.1" 30] 123456789) 0 = some delay ∧
      30000 ≤ delay ∧ delay < 30000 + 1000 := by
  obtain ⟨_, _, _, delay, h1, _, h3, h4, _⟩ :=
    jitter_bounds exampleEnv (startResolve (exampleCluster false 1000) 0) 0
      { exampleTarget with active_query := true } ResolutionStatus.Completed
      [entry "10.0.0.1" 30] 123456789 (by decide) (by decide) (fun _ _ _ => rfl)
      (by decide) (by decide) (by decide)
  exact ⟨delay, h1, h3, h4⟩

/-! ## Failed rounds -/

/-- C6: in a failed round (`isSuccessfulResponse` is false) the target's `hosts_` and
`all_hosts_` are unchanged, the only calls made are one `nextBackOffMs`, `onPreInitComplete`
and `enableTimer` (so `updateAllHosts` publishes nothing), `update_success` and
`update_no_rebuild` are unchanged and `update_failure` grows by exactly one. -/
theorem failed_round_frame {β : Type} (env : Env β) (self : DnsClusterImpl β) (i : Nat)
    (target : ResolveTarget) (status : ResolutionStatus) (response : List DnsResponse)
    (random : Nat) (ht : self.resolve_targets[i]? = some target)
    (hs : ResolveTarget.isSuccessfulResponse self.all_addresses_in_single_endpoint response
      status = false) :
    ((onResolveComplete env self i status response random).resolve_targets[i]?).map
        (fun t => t.hosts) = some target.hosts ∧
      ((onResolveComplete env self i status response random).resolve_targets[i]?).map
        (fun t => t.all_hosts) = some target.all_hosts ∧
      (onResolveComplete env self i status response random).trace =
        self.trace ++
          [Event.backoffNext, Event.onPreInitComplete,
           Event.enableTimer i (msOfUint64 (env.nextBackOffMs self.failure_backoff_strategy).1)] ∧
      (onResolveComplete env self i status response random).stats.update_success =
        self.stats.update_success ∧
      (onResolveComplete env self i status response random).stats.update_no_rebuild =
        self.stats.update_no_rebuild ∧
      (onResolveComplete env self i status response random).stats.update_failure =
        self.stats.update_failure + 1 := by
  have hi := lt_length_of_getElem? ht
  rw [onResolveComplete_failure env self i target status response random ht hs]
  simp [finishRound, List.getElem?_set, hi]

/-- Witness of C6: a Failure status for the one target of the example cluster. -/
theorem failed_round_frame_witness :
    (onResolveComplete exampleEnv (startResolve (exampleCluster false 0) 0) 0
        ResolutionStatus.Failure [] 0).trace =
      (startResolve (exampleCluster false 0) 0).trace ++
        [Event.backoffNext, Event.onPreInitComplete, Event.enableTimer 0 5000] ∧
    (onResolveComplete exampleEnv (startResolve (exampleCluster false 0) 0) 0
        ResolutionStatus.Failure [] 0).stats.update_failure = 1 :=
  have h := failed_round_frame exampleEnv (startResolve (exampleCluster false 0) 0) 0
    { exampleTarget with active_query := true } ResolutionStatus.Failure [] 0
    (by decide) (by decide)
  ⟨h.2.2.1, h.2.2.2.2.2⟩

/-- C7: in a failed round the timer is re-armed with the value one call of `nextBackOffMs`
returns (as a millisecond count; the value itself when it is below 2^63), whatever the
response, the respect-TTL flag, the configured refresh rate, the jitter bound and the random
value are: two failed rounds that start from the same back-off state arm the same delay. -/
theorem failed_round_delay_is_backoff {β : Type} (env : Env β) (self other : DnsClusterImpl β)
    (i j : Nat) (target target' : ResolveTarget) (status status' : ResolutionStatus)
    (response response' : List DnsResponse) (random random' : Nat)
    (ht : self.resolve_targets[i]? = some target)
    (hs : ResolveTarget.isSuccessfulResponse self.all_addresses_in_single_endpoint response
      status = false)
    (ht' : other.resolve_targets[j]? = some target')
    (hs' : ResolveTarget.isSuccessfulResponse other.all_addresses_in_single_endpoint response'
      status' = false)
    (hb : other.failure_backoff_strategy = self.failure_backoff_strategy) :
    armedDelay (onResolveComplete env self i status response random) i =
        some (msOfUint64 (env.nextBackOffMs self.failure_backoff_strategy).1) ∧
      ((env.nextBackOffMs self.failure_backoff_strategy).1 < 2 ^ 63 →
        armedDelay (onResolveComplete env self i status response random) i =
          some ((env.nextBackOffMs self.failure_backoff_strategy).1 : Int)) ∧
      armedDelay (onResolveComplete env other j status' response' random') j =
        armedDelay (onResolveComplete env self i status response random) i ∧
      (onResolveComplete env self i status response random).failure_backoff_strategy =
        (env.nextBackOffMs self.failure_backoff_strategy).2 := by
  have h1 : armedDelay (onResolveComplete env self i status response random) i =
      some (msOfUint64 (env.nextBackOffMs self.failure_backoff_strategy).1) := by
    rw [onResolveComplete_failure env self i target status response random ht hs]
    exact armedDelay_finishRound _ _ _ _ (lt_length_of_getElem? ht)
  have h2 : armedDelay (onResolveComplete env other j status' response' random') j =
      some (msOfUint64 (env.nextBackOffMs other.failure_backoff_strategy).1) := by
    rw [onResolveComplete_failure env other j target' status' response' random' ht' hs']
    exact armedDelay_finishRound _ _ _ _ (lt_length_of_getElem? ht')
  refine ⟨h1, ?_, ?_, ?_⟩
  · intro hv
    rw [h1]
    unfold msOfUint64
    rw [Nat.mod_eq_of_lt (by omega), int64Wrap_of_range _ (by omega) (by omega)]
  · rw [h1, h2, hb]
  · rw [onResolveComplete_failure env self i target status response random ht hs]
    rfl

/-- Witness of C7: a Failure status without jitter, and an empty Completed response in
single-endpoint mode with jitter bound 1000 ms, both arm the back-off's 5000 ms. -/
theorem failed_round_delay_is_backoff_witness :
    armedDelay
        (onResolveComplete exampleEnv (startResolve (exampleCluster false 0) 0) 0
          ResolutionStatus.Failure [entry "10.0.0.1" 30] 7) 0 = some 5000 ∧
      armedDelay
        (onResolveComplete exampleEnv (startResolve (exampleCluster true 1000) 0) 0
          ResolutionStatus.Completed [] 99) 0 = some 5000 :=
  have h := failed_round_delay_is_backoff exampleEnv (startResolve (exampleCluster false 0) 0)
    (startResolve (exampleCluster true 1000) 0) 0 0
    { exampleTarget with active_query := true } { exampleTarget with active_query := true }
    ResolutionStatus.Failure ResolutionStatus.Completed [entry "10.0.0.1" 30] [] 7 99
    (by decide) (by decide) (by decide) (by decide) (by decide)
  ⟨h.2.1 (by decide), h.2.2.1.trans (h.2.1 (by decide))⟩

/-! ## A round in which host construction fails -/

/-- C8, evaluated where it fails: the resolver completes with the one address 10.0.0.1 and
`HostImpl::create` rejects the host. The callback returns from inside the response loop:
after it the record of calls is what it was before the callback (the `resolve` of
`startResolve` only), so `onPreInitComplete` is not signalled, `nextBackOffMs` is not
consulted, and the timer is not re-armed although no query is active any more. -/
theorem host_construction_error_skips_rearm :
    (onResolveComplete rejectingEnv (startResolve (exampleCluster false 0) 0) 0
        ResolutionStatus.Completed [entry "10.0.0.1" 30] 0).trace =
      (startResolve (exampleCluster false 0) 0).trace ∧
    (startResolve (exampleCluster false 0) 0).trace = [Event.resolve "foo.example"] ∧
    armedDelay
      (onResolveComplete rejectingEnv (startResolve (exampleCluster false 0) 0) 0
        ResolutionStatus.Completed [entry "10.0.0.1" 30] 0) 0 = none ∧
    ((onResolveComplete rejectingEnv (startResolve (exampleCluster false 0) 0) 0
        ResolutionStatus.Completed [entry "10.0.0.1" 30] 0).resolve_targets.map
      (fun t => t.active_query)) = [false] := by
  decide

/-- C9, evaluated where it fails: in the same round (status Completed, `HostImpl::create`
rejects the host) `update_success` was incremented before the response loop and
`update_failure` is incremented in the error branch: both counters grow by one. -/
theorem host_construction_error_counts_twice :
    (startResolve (exampleCluster false 0) 0).stats = ⟨1, 0, 0, 0⟩ ∧
    (onResolveComplete rejectingEnv (startResolve (exampleCluster false 0) 0) 0
        ResolutionStatus.Completed [entry "10.0.0.1" 30] 0).stats = ⟨1, 1, 1, 0⟩ := by
  decide

/-! ## Construction in single-endpoint mode -/

/-- The constructor rejects, before any target is built, a single-endpoint configuration
that is not one locality group with one endpoint. -/
theorem ctor_single_reject {β : Type} (env : Env β) (backoff : β) (base_status : Status)
    (cfg : ClusterConfig) (hsingle : cfg.all_addresses_in_single_endpoint = true)
    (hshape : ¬ ∃ (l : LocalityLbEndpoints) (e : LbEndpoint),
      cfg.endpoints = [l] ∧ l.lb_endpoints = [e]) :
    DnsClusterImpl.ctor env backoff base_status cfg =
      (InvalidArgumentError
        "LOGICAL_DNS clusters must have a single locality_lb_endpoint and a single lb_endpoint",
       DnsClusterImpl.init backoff cfg) := by
  have hcond : (cfg.endpoints.length != 1 ||
      (cfg.endpoints.head?.map (fun l => l.lb_endpoints.length)) != some 1) = true := by
    rcases h : cfg.endpoints with _ | ⟨l, _ | ⟨l2, rest⟩⟩
    · rfl
    · rcases hl : l.lb_endpoints with _ | ⟨e, _ | ⟨e2, erest⟩⟩
      · simp [hl]
      · exact absurd ⟨l, e, h, hl⟩ hshape
      · simp [hl]
    · simp
  simp only [DnsClusterImpl.ctor, DnsClusterImpl.init, hsingle, hcond, Bool.and_self, if_true]

/-- In single-endpoint mode, one locality group with one endpoint yields one target, unless
the endpoint carries a resolver name. -/
theorem ctor_single_accept {β : Type} (env : Env β) (backoff : β) (base_status : Status)
    (cfg : ClusterConfig) (l : LocalityLbEndpoints) (e : LbEndpoint)
    (hsingle : cfg.all_addresses_in_single_endpoint = true)
    (hl : cfg.endpoints = [l]) (he : l.lb_endpoints = [e]) :
    (DnsClusterImpl.ctor env backoff base_status cfg).1.ok = true →
      (DnsClusterImpl.ctor env backoff base_status cfg).2.resolve_targets =
        [ResolveTarget.new e.socket_address.address e.socket_address.port_value l e] := by
  by_cases hr : e.socket_address.resolver_name.isEmpty = true
  · intro _
    simp [DnsClusterImpl.ctor, DnsClusterImpl.init, hsingle, hl, he, localityLoop, endpointLoop, hr]
  · intro hok
    simp [DnsClusterImpl.ctor, DnsClusterImpl.init, hsingle, hl, he, localityLoop, endpointLoop, hr,
      InvalidArgumentError, Status.ok] at hok

/-- C10: in single-endpoint mode, when the load assignment is not exactly one locality group
with exactly one lb_endpoint, the constructor leaves `resolve_targets_` empty and `create`
fails with an InvalidArgument status; and whenever `create` succeeds in this mode the
cluster has exactly one resolve target. -/
theorem single_endpoint_construction {β : Type} (env : Env β) (backoff : β)
    (base_status : Status) (cfg : ClusterConfig)
    (hsingle : cfg.all_addresses_in_single_endpoint = true) :
    ((¬ ∃ (l : LocalityLbEndpoints) (e : LbEndpoint),
          cfg.endpoints = [l] ∧ l.lb_endpoints = [e]) →
        (DnsClusterImpl.ctor env backoff base_status cfg).2.resolve_targets = [] ∧
        ∃ s : Status, DnsClusterImpl.create env backoff base_status cfg = Except.error s ∧
          s.code = StatusCode.kInvalidArgument) ∧
      (∀ cluster : DnsClusterImpl β,
        DnsClusterImpl.create env backoff base_status cfg = Except.ok cluster →
          cluster.resolve_targets.length = 1) := by
  constructor
  · intro hshape
    have h := ctor_single_reject env backoff base_status cfg hsingle hshape
    refine ⟨by rw [h]; rfl,
      InvalidArgumentError
        "LOGICAL_DNS clusters must have a single locality_lb_endpoint and a single lb_endpoint",
      ?_, rfl⟩
    simp only [DnsClusterImpl.create, h]
    rfl
  · intro cluster hcreate
    by_cases hshape : ∃ (l : LocalityLbEndpoints) (e : LbEndpoint),
        cfg.endpoints = [l] ∧ l.lb_endpoints = [e]
    · obtain ⟨l, e, hl, he⟩ := hshape
      have hacc := ctor_single_accept env backoff base_status cfg l e hsingle hl he
      simp only [DnsClusterImpl.create] at hcreate
      split at hcreate
      · rename_i hok
        cases hcreate
        rw [hacc hok]
        rfl
      · cases hcreate
    · have h := ctor_single_reject env backoff base_status cfg hsingle hshape
      simp only [DnsClusterImpl.create, h] at hcreate
      cases hcreate

/-- Witness of C10: two locality groups are rejected with InvalidArgument; one group with
one endpoint is accepted and yields one target. -/
theorem single_endpoint_construction_witness :
    (∃ s : Status,
        DnsClusterImpl.create exampleEnv 0 OkStatus
            (exampleConfig true
              [exampleLocality [exampleEndpoint "foo.example" 443],
               exampleLocality [exampleEndpoint "bar.example" 443]]) = Except.error s ∧
          s.code = StatusCode.kInvalidArgument) ∧
      (exampleCluster true 0).resolve_targets.length = 1 :=
  ⟨((single_endpoint_construction exampleEnv 0 OkStatus
        (exampleConfig true
          [exampleLocality [exampleEndpoint "foo.example" 443],
           exampleLocality [exampleEndpoint "bar.example" 443]]) rfl).1
      (by simp [exampleConfig])).2,
   (single_endpoint_construction exampleEnv 0 OkStatus
        (exampleConfig true [exampleLocality [exampleEndpoint "foo.example" 443]]) rfl).2
      (exampleCluster true 0) rfl⟩

/-! ## Resolver names -/

/-- The status the endpoint loop of the constructor raises for a custom resolver name. -/
theorem endpointLoop_named (l : LocalityLbEndpoints) (es : List LbEndpoint)
    (h : ∃ e ∈ es, e.socket_address.resolver_name.isEmpty = false) :
    ∀ acc : List ResolveTarget,
      endpointLoop l es acc =
        Except.error
          (InvalidArgumentError "DNS clusters must NOT have a custom resolver name set") := by
  induction es with
  | nil => obtain ⟨e, he, _⟩ := h; cases he
  | cons x xs ih =>
    intro acc
    by_cases hx : x.socket_address.resolver_name.isEmpty = true
    · obtain ⟨e, he, hn⟩ := h
      rcases List.mem_cons.mp he with rfl | he
      · rw [hx] at hn; cases hn
      · simp only [endpointLoop, hx, Bool.not_true, Bool.false_eq_true, if_false]
        exact ih ⟨e, he, hn⟩ _
    · simp [endpointLoop, hx]

/-- Without resolver names the endpoint loop adds one target per endpoint, in order. -/
theorem endpointLoop_unnamed (l : LocalityLbEndpoints) (es : List LbEndpoint)
    (h : ∀ e ∈ es, e.socket_address.resolver_name.isEmpty = true) :
    ∀ acc : List ResolveTarget,
      endpointLoop l es acc =
        Except.ok
          (acc ++ es.map (fun e =>
            ResolveTarget.new e.socket_address.address e.socket_address.port_value l e)) := by
  induction es with
  | nil => intro acc; simp [endpointLoop]
  | cons x xs ih =>
    intro acc
    have hx := h x (List.mem_cons_self _ _)
    simp only [endpointLoop, hx, Bool.not_true, Bool.false_eq_true, if_false]
    rw [ih (fun e he => h e (List.mem_cons_of_mem _ he))]
    simp

theorem localityLoop_named {β : Type} (env : Env β) (single : Bool)
    (ls : List LocalityLbEndpoints)
    (h : ∃ l ∈ ls, ∃ e ∈ l.lb_endpoints, e.socket_address.resolver_name.isEmpty = false) :
    ∀ acc : List ResolveTarget,
      ∃ s : Status, localityLoop env single ls acc = Except.error s ∧ s.ok = false := by
  induction ls with
  | nil => obtain ⟨l, hl, _⟩ := h; cases hl
  | cons x xs ih =>
    intro acc
    by_cases hv : (!single && !(env.validateEndpointsForZoneAwareRouting x).ok) = true
    · refine ⟨env.validateEndpointsForZoneAwareRouting x, ?_, ?_⟩
      · simp only [localityLoop, hv, if_true]
      · simp only [Bool.and_eq_true, Bool.not_eq_true'] at hv
        exact hv.2
    · by_cases hx : ∃ e ∈ x.lb_endpoints, e.socket_address.resolver_name.isEmpty = false
      · refine ⟨InvalidArgumentError "DNS clusters must NOT have a custom resolver name set",
          ?_, rfl⟩
        simp only [localityLoop, hv, if_false, endpointLoop_named x _ hx, Bool.false_eq_true]
      · have hx' : ∀ e ∈ x.lb_endpoints, e.socket_address.resolver_name.isEmpty = true := by
          intro e he
          by_contra hne
          exact hx ⟨e, he, by simpa using hne⟩
        obtain ⟨l, hl, e, he, hn⟩ := h
        rcases List.mem_cons.mp hl with rfl | hl
        · exact absurd ⟨e, he, hn⟩ hx
        · obtain ⟨s, hs, hok⟩ := ih ⟨l, hl, e, he, hn⟩
            (acc ++ x.lb_endpoints.map (fun e =>
              ResolveTarget.new e.socket_address.address e.socket_address.port_value x e))
          refine ⟨s, ?_, hok⟩
          simp only [localityLoop, hv, if_false, endpointLoop_unnamed x _ hx', Bool.false_eq_true]
          exact hs

theorem localityLoop_unnamed {β : Type} (env : Env β) (single : Bool)
    (ls : List LocalityLbEndpoints)
    (h : ∀ l ∈ ls, ∀ e ∈ l.lb_endpoints, e.socket_address.resolver_name.isEmpty = true) :
    ∀ acc : List ResolveTarget,
      (∃ out, localityLoop env single ls acc = Except.ok out) ∨
        ∃ l ∈ ls, localityLoop env single ls acc =
          Except.error (env.validateEndpointsForZoneAwareRouting l) := by
  induction ls with
  | nil => intro acc; exact Or.inl ⟨acc, rfl⟩
  | cons x xs ih =>
    intro acc
    by_cases hv : (!single && !(env.validateEndpointsForZoneAwareRouting x).ok) = true
    · right
      exact ⟨x, List.mem_cons_self _ _, by simp only [localityLoop, hv, if_true]⟩
    · have hx := h x (List.mem_cons_self _ _)
      rcases ih (fun l hl => h l (List.mem_cons_of_mem _ hl))
          (acc ++ x.lb_endpoints.map (fun e =>
            ResolveTarget.new e.socket_address.address e.socket_address.port_value x e)) with
        ⟨out, hout⟩ | ⟨l, hl, herr⟩
      · left
        refine ⟨out, ?_⟩
        simp only [localityLoop, hv, if_false, endpointLoop_unnamed x _ hx, Bool.false_eq_true]
        exact hout
      · right
        refine ⟨l, List.mem_cons_of_mem _ hl, ?_⟩
        simp only [localityLoop, hv, if_false, endpointLoop_unnamed x _ hx, Bool.false_eq_true]
        exact herr

/-- C11: when some lb_endpoint of some locality group carries a non-empty resolver name, in
either mode the constructor leaves `resolve_targets_` empty and `create` fails with an error
status; and when every resolver name is empty, the final status is the resolver-name error
only if the base class or the zone-aware validation handed that very status in. -/
theorem custom_resolver_name_rejected {β : Type} (env : Env β) (backoff : β)
    (base_status : Status) (cfg : ClusterConfig) :
    ((∃ l ∈ cfg.endpoints, ∃ e ∈ l.lb_endpoints, e.socket_address.resolver_name.isEmpty = false) →
        (DnsClusterImpl.ctor env backoff base_status cfg).2.resolve_targets = [] ∧
        ∃ s : Status, DnsClusterImpl.create env backoff base_status cfg = Except.error s ∧
          s.ok = false) ∧
      ((∀ l ∈ cfg.endpoints, ∀ e ∈ l.lb_endpoints,
            e.socket_address.resolver_name.isEmpty = true) →
        base_status ≠
          InvalidArgumentError "DNS clusters must NOT have a custom resolver name set" →
        (∀ l ∈ cfg.endpoints, env.validateEndpointsForZoneAwareRouting l ≠
          InvalidArgumentError "DNS clusters must NOT have a custom resolver name set") →
        (DnsClusterImpl.ctor env backoff base_status cfg).1 ≠
          InvalidArgumentError "DNS clusters must NOT have a custom resolver name set") := by
  constructor
  · intro hnamed
    by_cases hguard : (cfg.all_addresses_in_single_endpoint &&
        (cfg.endpoints.length != 1 ||
          (cfg.endpoints.head?.map (fun l => l.lb_endpoints.length)) != some 1)) = true
    · have hctor : DnsClusterImpl.ctor env backoff base_status cfg =
          (InvalidArgumentError
            "LOGICAL_DNS clusters must have a single locality_lb_endpoint and a single lb_endpoint",
           DnsClusterImpl.init backoff cfg) := by
        simp only [DnsClusterImpl.ctor, DnsClusterImpl.init, hguard, if_true]
      refine ⟨by rw [hctor]; rfl,
        InvalidArgumentError
          "LOGICAL_DNS clusters must have a single locality_lb_endpoint and a single lb_endpoint",
        ?_, rfl⟩
      simp only [DnsClusterImpl.create, hctor]; rfl
    · obtain ⟨s, hs, hok⟩ :=
        localityLoop_named env cfg.all_addresses_in_single_endpoint cfg.endpoints hnamed []
      have hctor : DnsClusterImpl.ctor env backoff base_status cfg =
          (s, DnsClusterImpl.init backoff cfg) := by
        simp only [DnsClusterImpl.ctor, DnsClusterImpl.init, hguard, if_false, hs,
          Bool.false_eq_true]
      refine ⟨by rw [hctor]; rfl, s, ?_, hok⟩
      simp only [DnsClusterImpl.create, hctor, hok, Bool.false_eq_true, if_false]
  · intro hall hbase hval
    by_cases hguard : (cfg.all_addresses_in_single_endpoint &&
        (cfg.endpoints.length != 1 ||
          (cfg.endpoints.head?.map (fun l => l.lb_endpoints.length)) != some 1)) = true
    · simp only [DnsClusterImpl.ctor, DnsClusterImpl.init, hguard, if_true]
      decide
    · rcases localityLoop_unnamed env cfg.all_addresses_in_single_endpoint cfg.endpoints hall []
        with ⟨out, hout⟩ | ⟨l, hl, herr⟩
      · simp only [DnsClusterImpl.ctor, DnsClusterImpl.init, hguard, if_false, hout,
          Bool.false_eq_true]
        exact hbase
      · simp only [DnsClusterImpl.ctor, DnsClusterImpl.init, hguard, if_false, herr,
          Bool.false_eq_true]
        exact hval l hl

/-- Witness of C11: an endpoint with resolver name `custom` is rejected in strict mode, and
the example configuration, whose resolver names are empty, does not end in that error. -/
theorem custom_resolver_name_rejected_witness :
    (∃ s : Status,
        DnsClusterImpl.create exampleEnv 0 OkStatus
          (exampleConfig false
            [exampleLocality
              [exampleEndpoint "foo.example" 443,
               { exampleEndpoint "bar.example" 443 with
                 socket_address := ⟨"bar.example", 443, "custom"⟩ }]]) = Except.error s ∧
          s.ok = false) ∧
      (DnsClusterImpl.ctor exampleEnv 0 OkStatus
          (exampleConfig false [exampleLocality [exampleEndpoint "foo.example" 443]])).1 ≠
        InvalidArgumentError "DNS clusters must NOT have a custom resolver name set" :=
  ⟨((custom_resolver_name_rejected exampleEnv 0 OkStatus
        (exampleConfig false
          [exampleLocality
            [exampleEndpoint "foo.example" 443,
             { exampleEndpoint "bar.example" 443 with
               socket_address := ⟨"bar.example", 443, "custom"⟩ }]])).1
      (by decide)).2,
   (custom_resolver_name_rejected exampleEnv 0 OkStatus
        (exampleConfig false [exampleLocality [exampleEndpoint "foo.example" 443]])).2
      (by decide) (by decide) (by decide)⟩

/-! ## Start of resolution and aggregation -/

/-- The effect of `startResolve` on the target at the end of the prefix `pre`. -/
theorem startResolve_at {β : Type} (self : DnsClusterImpl β) (pre post : List ResolveTarget)
    (target : ResolveTarget) (h : self.resolve_targets = pre ++ target :: post) :
    startResolve self pre.length =
      { self with
        stats := { self.stats with update_attempt := self.stats.update_attempt + 1 }
        resolve_targets :=
          pre ++ { target with active_query := true, resolve_timer := none } :: post
        trace := self.trace ++ [Event.resolve target.dns_address] } := by
  have hget : self.resolve_targets[pre.length]? = some target := by
    rw [h, List.getElem?_append_right (Nat.le_refl _)]
    simp
  have hset : ∀ x : ResolveTarget,
      self.resolve_targets.set pre.length x = pre ++ x :: post := by
    intro x
    rw [h, List.set_append_right _ _ (Nat.le_refl _)]
    simp
  simp only [startResolve, hget, hset]

/-- Running `startResolve` on the targets `post` that follow the prefix `pre`, in order. -/
theorem foldl_startResolve {β : Type} (post : List ResolveTarget) :
    ∀ (pre : List ResolveTarget) (self : DnsClusterImpl β),
      self.resolve_targets = pre ++ post →
      (List.range' pre.length post.length).foldl startResolve self =
        { self with
          stats :=
            { self.stats with update_attempt := self.stats.update_attempt + post.length }
          resolve_targets :=
            pre ++ post.map (fun t => { t with active_query := true, resolve_timer := none })
          trace := self.trace ++ post.map (fun t => Event.resolve t.dns_address) } := by
  induction post with
  | nil =>
    intro pre self h
    simp only [List.length_nil, List.range'_zero, List.foldl_nil, List.map_nil, List.append_nil,
      Nat.add_zero]
    rw [← List.append_nil pre, ← h]
  | cons t rest ih =>
    intro pre self h
    simp only [List.length_cons, List.range'_succ, List.foldl_cons]
    rw [startResolve_at self pre rest t h]
    have := ih (pre ++ [{ t with active_query := true, resolve_timer := none }])
      { self with
        stats := { self.stats with update_attempt := self.stats.update_attempt + 1 }
        resolve_targets := pre ++ { t with active_query := true, resolve_timer := none } :: rest
        trace := self.trace ++ [Event.resolve t.dns_address] }
      (by simp)
    simp only [List.length_append, List.length_singleton] at this
    rw [this]
    simp [Nat.add_assoc, Nat.add_comm 1]

/-- C12: `startPreInit` runs `startResolve` once on every target, in configuration order
(every target gets an active query, one `resolve` call per target is recorded in that
order, `update_attempt` grows by the number of targets), and then signals
`onPreInitComplete` itself exactly when the target list is empty or the cluster does not
wait for warm-up on init; with zero targets the only call made is `onPreInitComplete`. -/
theorem startPreInit_resolves_every_target {β : Type} (self : DnsClusterImpl β) :
    self.startPreInit.resolve_targets =
        self.resolve_targets.map
          (fun t => { t with active_query := true, resolve_timer := none }) ∧
      self.startPreInit.stats.update_attempt =
        self.stats.update_attempt + self.resolve_targets.length ∧
      self.startPreInit.trace =
        self.trace ++ self.resolve_targets.map (fun t => Event.resolve t.dns_address) ++
          (if self.resolve_targets = [] ∨ self.wait_for_warm_on_init = false then
            [Event.onPreInitComplete]
          else []) ∧
      (self.resolve_targets = [] →
        self.startPreInit.trace = self.trace ++ [Event.onPreInitComplete] ∧
        self.startPreInit.resolve_targets = []) := by
  have hfold := foldl_startResolve self.resolve_targets [] self (by simp)
  simp only [List.length_nil, List.nil_append] at hfold
  have hrange : List.range self.resolve_targets.length =
      List.range' 0 self.resolve_targets.length := List.range_eq_range' _
  have hmain : self.startPreInit.resolve_targets =
        self.resolve_targets.map
          (fun t => { t with active_query := true, resolve_timer := none }) ∧
      self.startPreInit.stats.update_attempt =
        self.stats.update_attempt + self.resolve_targets.length ∧
      self.startPreInit.trace =
        self.trace ++ self.resolve_targets.map (fun t => Event.resolve t.dns_address) ++
          (if self.resolve_targets = [] ∨ self.wait_for_warm_on_init = false then
            [Event.onPreInitComplete]
          else []) := by
    simp only [DnsClusterImpl.startPreInit, hrange, hfold]
    by_cases he : self.resolve_targets = [] <;> cases hw : self.wait_for_warm_on_init <;>
      simp [he, hw]
  refine ⟨hmain.1, hmain.2.1, hmain.2.2, ?_⟩
  intro he
  refine ⟨?_, ?_⟩
  · rw [hmain.2.2]; simp [he]
  · rw [hmain.1]; simp [he]

/-- Witness of C12: the cluster built from a load assignment without endpoints has no
target, and `startPreInit` only signals `onPreInitComplete`. -/
theorem startPreInit_resolves_every_target_witness :
    (DnsClusterImpl.ctor exampleEnv 0 OkStatus (exampleConfig false [])).2.startPreInit.trace =
        [Event.onPreInitComplete] ∧
      (DnsClusterImpl.ctor exampleEnv 0 OkStatus
        (exampleConfig false [])).2.startPreInit.resolve_targets = [] :=
  (startPreInit_resolves_every_target
    (DnsClusterImpl.ctor exampleEnv 0 OkStatus (exampleConfig false [])).2).2.2.2 rfl

theorem foldl_register (cond : Bool) (hosts : HostVector) :
    ∀ registered : HostVector,
      hosts.foldl (fun registered host => if cond then registered ++ [host] else registered)
          registered =
        if cond then registered ++ hosts else registered := by
  induction hosts with
  | nil => intro registered; cases cond <;> simp
  | cons h hs ih =>
    intro registered
    simp only [List.foldl_cons, ih]
    cases cond <;> simp

theorem registeredHosts_eq_aux (current_priority : Nat) (targets : List ResolveTarget) :
    ∀ registered : HostVector,
      targets.foldl
          (fun registered target =>
            target.hosts.foldl
              (fun registered host =>
                if target.locality_lb_endpoints.priority == current_priority then
                  registered ++ [host]
                else registered)
              registered)
          registered =
        registered ++
          ((targets.filter
              (fun target => target.locality_lb_endpoints.priority == current_priority)).map
            (fun target => target.hosts)).flatten := by
  induction targets with
  | nil => intro registered; simp
  | cons t ts ih =>
    intro registered
    rw [List.foldl_cons, foldl_register, ih]
    by_cases hp : (t.locality_lb_endpoints.priority == current_priority) = true
    · simp [hp, List.filter_cons]
    · simp [hp, List.filter_cons]

/-- C13: for every priority p and every state of the targets, `updateAllHosts` publishes for
p the concatenation, over the targets in configuration order whose priority is p, of each
such target's `hosts_` in stored order; a host is in the list only if it belongs to a target
of priority p; `hosts_added`, `hosts_removed`, the weighted-priority-health flag and the
overprovisioning factor are passed through unchanged, and nothing else changes. -/
theorem updateAllHosts_publishes_concatenation {β : Type} (self : DnsClusterImpl β)
    (hosts_added hosts_removed : HostVector) (current_priority : Nat) :
    (self.updateAllHosts hosts_added hosts_removed current_priority).trace =
        self.trace ++
          [Event.updateClusterPrioritySet current_priority
            (((self.resolve_targets.filter
                (fun target => target.locality_lb_endpoints.priority == current_priority)).map
              (fun target => target.hosts)).flatten)
            hosts_added hosts_removed self.weighted_priority_health
            self.overprovisioning_factor] ∧
      (∀ host : Host, host ∈ registeredHosts self.resolve_targets current_priority ↔
        ∃ target ∈ self.resolve_targets,
          target.locality_lb_endpoints.priority = current_priority ∧ host ∈ target.hosts) ∧
      (self.updateAllHosts hosts_added hosts_removed current_priority).resolve_targets =
        self.resolve_targets ∧
      (self.updateAllHosts hosts_added hosts_removed current_priority).stats = self.stats := by
  have heq : registeredHosts self.resolve_targets current_priority =
      ((self.resolve_targets.filter
          (fun target => target.locality_lb_endpoints.priority == current_priority)).map
        (fun target => target.hosts)).flatten := by
    unfold registeredHosts
    rw [registeredHosts_eq_aux]
    simp
  refine ⟨by simp only [DnsClusterImpl.updateAllHosts, heq], ?_, rfl, rfl⟩
  intro host
  rw [heq]
  simp only [List.mem_flatten, List.mem_map, List.mem_filter, beq_iff_eq]
  constructor
  · rintro ⟨l, ⟨t, ⟨ht, hp⟩, rfl⟩, hh⟩
    exact ⟨t, ht, hp, hh⟩
  · rintro ⟨t, ht, hp, hh⟩
    exact ⟨t.hosts, ⟨t, ⟨ht, hp⟩, rfl⟩, hh⟩

/-! ## The state after a successful round -/

/-- The whole state the success branch leaves behind. -/
theorem onResolveComplete_success_eq {β : Type} (env : Env β) (self : DnsClusterImpl β) (i : Nat)
    (target : ResolveTarget) (status : ResolutionStatus) (response : List DnsResponse)
    (random : Nat) (locals : RoundLocals) (ht : self.resolve_targets[i]? = some target)
    (hs : ResolveTarget.isSuccessfulResponse self.all_addresses_in_single_endpoint response
      status = true)
    (hl : responseLoop env self.all_addresses_in_single_endpoint
      { target with active_query := false } response (RoundLocals.init self.next_host_uid) =
        Except.ok locals) :
    onResolveComplete env self i status response random =
      { self with
        stats :=
          { self.stats with
            update_success := self.stats.update_success + 1
            update_no_rebuild :=
              self.stats.update_no_rebuild +
                (if (roundUpdate env target locals).changed then 0 else 1) }
        failure_backoff_strategy := env.reset self.failure_backoff_strategy
        next_host_uid := locals.next_host_uid
        resolve_targets :=
          self.resolve_targets.set i
            { targetAfterUpdate target (roundUpdate env target locals) with
              resolve_timer :=
                some (successRefreshRate self.dns_refresh_rate_ms self.dns_jitter_ms
                  self.respect_dns_ttl response locals.ttl_refresh_rate random) }
        trace :=
          self.trace ++
            (if (roundUpdate env target locals).changed then
              [Event.updateClusterPrioritySet target.locality_lb_endpoints.priority
                (registeredHosts
                  (self.resolve_targets.set i
                    (targetAfterUpdate target (roundUpdate env target locals)))
                  target.locality_lb_endpoints.priority)
                (roundUpdate env target locals).hosts_added
                (roundUpdate env target locals).hosts_removed
                self.weighted_priority_health self.overprovisioning_factor]
            else []) ++
            [Event.backoffReset] ++
            (if self.dns_jitter_ms > 0 then [Event.random] else []) ++
            [Event.onPreInitComplete,
             Event.enableTimer i
               (successRefreshRate self.dns_refresh_rate_ms self.dns_jitter_ms
                 self.respect_dns_ttl response locals.ttl_refresh_rate random)] } := by
  simp only [onResolveComplete, ht, hs, hl, if_true]
  by_cases hch : (env.updateDynamicHostList locals.new_hosts target.hosts target.all_hosts
      locals.all_new_hosts).changed = true <;>
    by_cases hj : self.dns_jitter_ms > 0 <;>
    simp [hch, hj, DnsClusterImpl.updateAllHosts, finishRound, roundUpdate, targetAfterUpdate]

/-! ## Empty responses, the back-off strategy, and the TTL assertion -/

/-- C15: outside single-endpoint mode a Completed round with an empty response is a success:
`update_success` grows by one and `update_failure` is unchanged, `new_hosts` is empty and so
is `hosts_added` (the differ adds only hosts of the new round), the back-off strategy is
reset and not consulted, and the timer is re-armed with the configured refresh rate, plus
the jitter offset when a jitter bound is configured, whatever the respect-TTL flag is. -/
theorem empty_completed_response_is_success {β : Type} (env : Env β) (self : DnsClusterImpl β)
    (i : Nat) (target : ResolveTarget) (random : Nat)
    (ht : self.resolve_targets[i]? = some target)
    (hsingle : self.all_addresses_in_single_endpoint = false)
    (hadd : ∀ (new_hosts current : HostVector) (all_hosts : HostMap)
      (all_new_hosts : List String),
      ∀ host ∈ (env.updateDynamicHostList new_hosts current all_hosts all_new_hosts).hosts_added,
        host ∈ new_hosts) :
    ResolveTarget.isSuccessfulResponse self.all_addresses_in_single_endpoint []
        ResolutionStatus.Completed = true ∧
      (onResolveComplete env self i ResolutionStatus.Completed [] random).stats.update_success =
        self.stats.update_success + 1 ∧
      (onResolveComplete env self i ResolutionStatus.Completed [] random).stats.update_failure =
        self.stats.update_failure ∧
      responseLoop env self.all_addresses_in_single_endpoint
          { target with active_query := false } [] (RoundLocals.init self.next_host_uid) =
        Except.ok (RoundLocals.init self.next_host_uid) ∧
      (RoundLocals.init self.next_host_uid).new_hosts = [] ∧
      (roundUpdate env target (RoundLocals.init self.next_host_uid)).hosts_added = [] ∧
      (onResolveComplete env self i ResolutionStatus.Completed []
          random).failure_backoff_strategy = env.reset self.failure_backoff_strategy ∧
      ((onResolveComplete env self i ResolutionStatus.Completed [] random).trace.drop
          self.trace.length).count Event.backoffNext = 0 ∧
      armedDelay (onResolveComplete env self i ResolutionStatus.Completed [] random) i =
        some
          (if self.dns_jitter_ms > 0 then
            int64Wrap (self.dns_refresh_rate_ms + jitterOffset self.dns_jitter_ms random)
          else self.dns_refresh_rate_ms) := by
  have hs : ResolveTarget.isSuccessfulResponse self.all_addresses_in_single_endpoint []
      ResolutionStatus.Completed = true := by
    rw [hsingle]; rfl
  have hl : responseLoop env self.all_addresses_in_single_endpoint
      { target with active_query := false } [] (RoundLocals.init self.next_host_uid) =
        Except.ok (RoundLocals.init self.next_host_uid) := rfl
  have heq := onResolveComplete_success_eq env self i target ResolutionStatus.Completed []
    random (RoundLocals.init self.next_host_uid) ht hs hl
  have hempty : (roundUpdate env target (RoundLocals.init self.next_host_uid)).hosts_added =
      [] := by
    apply List.eq_nil_iff_forall_not_mem.mpr
    intro host hh
    have := hadd _ _ _ _ host hh
    simp [RoundLocals.init] at this
  have hi := lt_length_of_getElem? ht
  refine ⟨hs, ?_, ?_, hl, rfl, hempty, ?_, ?_, ?_⟩
  · rw [heq]
  · rw [heq]
  · rw [heq]
  · rw [heq]
    simp only [List.append_assoc, List.drop_left]
    by_cases hch : (roundUpdate env target (RoundLocals.init self.next_host_uid)).changed = true <;>
      by_cases hj : self.dns_jitter_ms > 0 <;>
      simp [hch, hj, List.count_cons]
  · rw [heq]
    simp only [armedDelay, List.getElem?_set, hi, if_true, Option.bind_some]
    simp [successRefreshRate, ttlOrConfiguredRate]

/-- Witness of C15: the example cluster with jitter bound 1000 ms and TTLs respected arms
5000 ms plus the offset 789 for the random value 123456789. -/
theorem empty_completed_response_is_success_witness :
    (onResolveComplete exampleEnv (startResolve (exampleCluster false 1000) 0) 0
        ResolutionStatus.Completed [] 123456789).stats.update_success = 1 ∧
      (onResolveComplete exampleEnv (startResolve (exampleCluster false 1000) 0) 0
        ResolutionStatus.Completed [] 123456789).stats.update_failure = 0 ∧
      armedDelay
        (onResolveComplete exampleEnv (startResolve (exampleCluster false 1000) 0) 0
          ResolutionStatus.Completed [] 123456789) 0 = some 5789 :=
  have h := empty_completed_response_is_success exampleEnv
    (startResolve (exampleCluster false 1000) 0) 0 { exampleTarget with active_query := true }
    123456789 (by decide) (by decide)
    (fun _ _ _ _ host hh => (List.mem_filter.mp hh).1)
  ⟨h.2.1, h.2.2.1, h.2.2.2.2.2.2.2.2.trans (by decide)⟩

/-- C18: a successful round (host construction succeeds for every address) calls `reset`
exactly once, before `enableTimer`, and never `nextBackOffMs`; a failed round calls
`nextBackOffMs` exactly once and never `reset`; so, for a strategy whose first delay after
`reset` is `base`, a failed round that starts from the back-off state a successful round
left arms `base`, whatever the back-off state before that success was. -/
theorem backoff_reset_on_success {β : Type} (env : Env β) (self later : DnsClusterImpl β)
    (i j : Nat) (target target' : ResolveTarget) (status status' : ResolutionStatus)
    (response response' : List DnsResponse) (random random' : Nat) (base : Nat)
    (ht : self.resolve_targets[i]? = some target)
    (hs : ResolveTarget.isSuccessfulResponse self.all_addresses_in_single_endpoint response
      status = true)
    (hc : ConstructionSucceeds env target response)
    (ht' : later.resolve_targets[j]? = some target')
    (hf : ResolveTarget.isSuccessfulResponse later.all_addresses_in_single_endpoint response'
      status' = false)
    (hlater : later.failure_backoff_strategy =
      (onResolveComplete env self i status response random).failure_backoff_strategy)
    (hbase : ∀ b : β, (env.nextBackOffMs (env.reset b)).1 = base) :
    (((onResolveComplete env self i status response random).trace.drop
          self.trace.length).count Event.backoffReset = 1 ∧
      ((onResolveComplete env self i status response random).trace.drop
          self.trace.length).count Event.backoffNext = 0 ∧
      (∃ (pre post : List Event) (delay : Int),
        (onResolveComplete env self i status response random).trace =
          self.trace ++ pre ++ [Event.backoffReset] ++ post ++ [Event.enableTimer i delay]) ∧
      (onResolveComplete env self i status response random).failure_backoff_strategy =
        env.reset self.failure_backoff_strategy) ∧
    (((onResolveComplete env later j status' response' random').trace.drop
          later.trace.length).count Event.backoffNext = 1 ∧
      ((onResolveComplete env later j status' response' random').trace.drop
          later.trace.length).count Event.backoffReset = 0 ∧
      (onResolveComplete env later j status' response' random').failure_backoff_strategy =
        (env.nextBackOffMs later.failure_backoff_strategy).2) ∧
    armedDelay (onResolveComplete env later j status' response' random') j =
      some (msOfUint64 base) := by
  obtain ⟨locals, hl, _⟩ :=
    responseLoop_ok env self.all_addresses_in_single_endpoint
      { target with active_query := false } response hc (RoundLocals.init self.next_host_uid)
  have heq := onResolveComplete_success_eq env self i target status response random locals
    ht hs hl
  have hfail := onResolveComplete_failure env later j target' status' response' random' ht' hf
  have hreset : (onResolveComplete env self i status response random).failure_backoff_strategy =
      env.reset self.failure_backoff_strategy := by rw [heq]
  refine ⟨⟨?_, ?_, ?_, hreset⟩, ⟨?_, ?_, ?_⟩, ?_⟩
  · rw [heq]
    simp only [List.append_assoc, List.drop_left]
    by_cases hch : (roundUpdate env target locals).changed = true <;>
      by_cases hj : self.dns_jitter_ms > 0 <;>
      simp [hch, hj, List.count_cons]
  · rw [heq]
    simp only [List.append_assoc, List.drop_left]
    by_cases hch : (roundUpdate env target locals).changed = true <;>
      by_cases hj : self.dns_jitter_ms > 0 <;>
      simp [hch, hj, List.count_cons]
  · rw [heq]
    exact ⟨if (roundUpdate env target locals).changed then
        [Event.updateClusterPrioritySet target.locality_lb_endpoints.priority
          (registeredHosts
            (self.resolve_targets.set i
              (targetAfterUpdate target (roundUpdate env target locals)))
            target.locality_lb_endpoints.priority)
          (roundUpdate env target locals).hosts_added
          (roundUpdate env target locals).hosts_removed
          self.weighted_priority_health self.overprovisioning_factor]
      else [],
      (if self.dns_jitter_ms > 0 then [Event.random] else []) ++ [Event.onPreInitComplete],
      successRefreshRate self.dns_refresh_rate_ms self.dns_jitter_ms self.respect_dns_ttl
        response locals.ttl_refresh_rate random,
      by simp⟩
  · rw [hfail]
    simp [finishRound, List.count_cons]
  · rw [hfail]
    simp [finishRound, List.count_cons]
  · rw [hfail]; rfl
  · rw [hfail]
    refine (armedDelay_finishRound _ _ _ _ (lt_length_of_getElem? ht')).trans ?_
    rw [hlater, hreset, hbase]

/-- Witness of C18: after two failed rounds (5000 ms, then 10000 ms) a successful round
resets the strategy, and the failed round that follows arms 5000 ms again. -/
theorem backoff_reset_on_success_witness :
    armedDelay
        (onResolveComplete exampleEnv
          (startResolve
            (onResolveComplete exampleEnv
              (startResolve
                (onResolveComplete exampleEnv
                  (startResolve
                    (onResolveComplete exampleEnv (startResolve (exampleCluster false 0) 0) 0
                      ResolutionStatus.Failure [] 0) 0)
                  0 ResolutionStatus.Failure [] 0) 0)
              0 ResolutionStatus.Completed [entry "10.0.0.1" 30] 0) 0)
          0 ResolutionStatus.Failure [] 0) 0 =
      some 5000 :=
  (backoff_reset_on_success exampleEnv
    (startResolve
      (onResolveComplete exampleEnv
        (startResolve
          (onResolveComplete exampleEnv (startResolve (exampleCluster false 0) 0) 0
            ResolutionStatus.Failure [] 0) 0)
        0 ResolutionStatus.Failure [] 0) 0)
    (startResolve
      (onResolveComplete exampleEnv
        (startResolve
          (onResolveComplete exampleEnv
            (startResolve
              (onResolveComplete exampleEnv (startResolve (exampleCluster false 0) 0) 0
                ResolutionStatus.Failure [] 0) 0)
            0 ResolutionStatus.Failure [] 0) 0)
        0 ResolutionStatus.Completed [entry "10.0.0.1" 30] 0) 0)
    0 0 { exampleTarget with active_query := true }
    { exampleTarget with
      active_query := true
      hosts := [HostImpl.new 0 exampleTarget ⟨"10.0.0.1", 443⟩]
      all_hosts := [("10.0.0.1:443", HostImpl.new 0 exampleTarget ⟨"10.0.0.1", 443⟩)] }
    ResolutionStatus.Completed ResolutionStatus.Failure [entry "10.0.0.1" 30] [] 0 0 5000
    (by decide) (by decide) (fun _ _ _ => rfl) (by decide) (by decide) (by decide)
    (fun _ => rfl)).2.2

/-- C20: in a round whose response is non-empty, whose host constructions all succeed and
whose TTLs lie in `[0, 2^31)` seconds, the TTL the response loop records is not the sentinel
`seconds::max()`, and when it is nonzero (the TTL branch is taken if TTLs are respected) the
refresh rate `secondsToMs` of it is that TTL times 1000 and strictly positive: the ASSERT
of the TTL branch holds. -/
theorem ttl_assert_holds {β : Type} (env : Env β) (single : Bool) (target : ResolveTarget)
    (response : List DnsResponse) (next_host_uid : Nat) (dns_refresh_rate_ms : Int)
    (hne : response ≠ [])
    (hc : ConstructionSucceeds env target response)
    (httl : ∀ resp ∈ response, 0 ≤ resp.ttl ∧ resp.ttl < 2 ^ 31) :
    ∃ locals : RoundLocals,
      responseLoop env single target response (RoundLocals.init next_host_uid) =
        Except.ok locals ∧
      locals.ttl_refresh_rate ≠ secondsMax ∧
      (∃ resp ∈ response, locals.ttl_refresh_rate = resp.ttl) ∧
      (locals.ttl_refresh_rate ≠ 0 →
        ttlOrConfiguredRate dns_refresh_rate_ms true response locals.ttl_refresh_rate =
          secondsToMs locals.ttl_refresh_rate ∧
        secondsToMs locals.ttl_refresh_rate = locals.ttl_refresh_rate * 1000 ∧
        0 < secondsToMs locals.ttl_refresh_rate) := by
  obtain ⟨locals, hl, _, _, hrate⟩ :=
    responseLoop_ok env single target response hc (RoundLocals.init next_host_uid)
  have hmin : locals.ttl_refresh_rate = minTtl (contributingEntries single target.port response) := by
    rw [hrate]
    simp only [RoundLocals.init, keptFrom_nil_seen, minTtl]
  obtain ⟨r0, hr0⟩ :=
    List.exists_mem_of_ne_nil _ (contributingEntries_ne_nil single target.port response hne)
  have hle := (foldl_min_ttl_le (contributingEntries single target.port response) secondsMax).2
    r0 hr0
  have hr0b := httl r0 (contributingEntries_subset single target.port response r0 hr0)
  have hlt : locals.ttl_refresh_rate < 2 ^ 31 := by
    rw [hmin]; exact lt_of_le_of_lt hle hr0b.2
  have hmem : ∃ resp ∈ response, locals.ttl_refresh_rate = resp.ttl := by
    rcases foldl_min_ttl_cases (contributingEntries single target.port response) secondsMax with
      h | ⟨r, hr, h⟩
    · exfalso
      have : minTtl (contributingEntries single target.port response) = secondsMax := h
      rw [← hmin] at this
      rw [this] at hlt
      unfold secondsMax at hlt
      omega
    · exact ⟨r, contributingEntries_subset single target.port response r hr, by rw [hmin]; exact h⟩
  obtain ⟨r, hr, hrt⟩ := hmem
  have hnonneg : 0 ≤ locals.ttl_refresh_rate := by rw [hrt]; exact (httl r hr).1
  refine ⟨locals, hl, ?_, ⟨r, hr, hrt⟩, ?_⟩
  · intro h
    rw [h] at hlt
    unfold secondsMax at hlt
    omega
  · intro hnz
    have hms : secondsToMs locals.ttl_refresh_rate = locals.ttl_refresh_rate * 1000 := by
      unfold secondsToMs
      rw [int64Wrap_of_range _ (by omega) (by omega)]
    refine ⟨?_, hms, ?_⟩
    · cases response with
      | nil => exact absurd rfl hne
      | cons x xs => simp [ttlOrConfiguredRate, hnz]
    · rw [hms]; omega

/-- Witness of C20: TTLs 30 s and 40 s record 30 s, which is armed as 30000 ms. -/
theorem ttl_assert_holds_witness :
    ∃ locals : RoundLocals,
      responseLoop exampleEnv false exampleTarget [entry "10.0.0.1" 30, entry "10.0.0.2" 40]
        (RoundLocals.init 0) = Except.ok locals ∧
      locals.ttl_refresh_rate ≠ secondsMax ∧
      (locals.ttl_refresh_rate ≠ 0 → 0 < secondsToMs locals.ttl_refresh_rate) := by
  obtain ⟨locals, h1, h2, _, h4⟩ :=
    ttl_assert_holds exampleEnv false exampleTarget [entry "10.0.0.1" 30, entry "10.0.0.2" 40]
      0 5000 (by decide) (fun _ _ _ => rfl) (by decide)
  exact ⟨locals, h1, h2, fun hnz => (h4 hnz).2.2⟩

/-! ## Invariants of the reachable states -/

theorem endpointLoop_idle (l : LocalityLbEndpoints) (es : List LbEndpoint) :
    ∀ (acc out : List ResolveTarget), endpointLoop l es acc = Except.ok out →
      (∀ t ∈ acc, t.Idle) → ∀ t ∈ out, t.Idle := by
  induction es with
  | nil =>
    intro acc out h hacc
    simp only [endpointLoop, Except.ok.injEq] at h
    subst h
    exact hacc
  | cons x xs ih =>
    intro acc out h hacc
    by_cases hx : x.socket_address.resolver_name.isEmpty = true
    · simp only [endpointLoop, hx, Bool.not_true, Bool.false_eq_true, if_false] at h
      refine ih _ out h ?_
      intro t ht
      rcases List.mem_append.mp ht with ht | ht
      · exact hacc t ht
      · rw [List.mem_singleton.mp ht]
        exact ⟨rfl, rfl, rfl, rfl⟩
    · simp [endpointLoop, hx] at h

theorem localityLoop_idle {β : Type} (env : Env β) (single : Bool)
    (ls : List LocalityLbEndpoints) :
    ∀ (acc out : List ResolveTarget), localityLoop env single ls acc = Except.ok out →
      (∀ t ∈ acc, t.Idle) → ∀ t ∈ out, t.Idle := by
  induction ls with
  | nil =>
    intro acc out h hacc
    simp only [localityLoop, Except.ok.injEq] at h
    subst h
    exact hacc
  | cons x xs ih =>
    intro acc out h hacc
    by_cases hv : (!single && !(env.validateEndpointsForZoneAwareRouting x).ok) = true
    · simp [localityLoop, hv] at h
    · simp only [localityLoop, hv, if_false, Bool.false_eq_true] at h
      cases hin : endpointLoop x x.lb_endpoints acc with
      | error e => simp [hin] at h
      | ok mid =>
        simp only [hin] at h
        exact ih mid out h (endpointLoop_idle x x.lb_endpoints acc mid hin hacc)

/-- Every target of a freshly created cluster is idle, and no call has been recorded. -/
theorem create_idle {β : Type} (env : Env β) (backoff : β) (base_status : Status)
    (cfg : ClusterConfig) (c : DnsClusterImpl β)
    (h : DnsClusterImpl.create env backoff base_status cfg = Except.ok c) :
    (∀ t ∈ c.resolve_targets, t.Idle) ∧ c.trace = [] := by
  simp only [DnsClusterImpl.create] at h
  split at h
  · simp only [Except.ok.injEq] at h
    subst h
    simp only [DnsClusterImpl.ctor]
    split
    · exact ⟨(by intro t ht; cases ht), rfl⟩
    · split
      · exact ⟨(by intro t ht; cases ht), rfl⟩
      · rename_i out hout
        exact ⟨localityLoop_idle env _ cfg.endpoints [] out hout (by intro t ht; cases ht), rfl⟩
  · cases h

theorem startPreInit_eq {β : Type} (self : DnsClusterImpl β) :
    self.startPreInit.resolve_targets =
        self.resolve_targets.map
          (fun t => { t with active_query := true, resolve_timer := none }) ∧
      ∃ events : List Event, self.startPreInit.trace = self.trace ++ events ∧
        ∀ e ∈ events, (∃ a, e = Event.resolve a) ∨ e = Event.onPreInitComplete := by
  have hfold := foldl_startResolve self.resolve_targets [] self (by simp)
  simp only [List.length_nil, List.nil_append] at hfold
  have hrange : List.range self.resolve_targets.length =
      List.range' 0 self.resolve_targets.length := List.range_eq_range' _
  simp only [DnsClusterImpl.startPreInit, hrange, hfold]
  split
  · refine ⟨rfl, self.resolve_targets.map (fun t => Event.resolve t.dns_address) ++
      [Event.onPreInitComplete], by simp, ?_⟩
    intro e he
    rcases List.mem_append.mp he with he | he
    · obtain ⟨t, _, rfl⟩ := List.mem_map.mp he
      exact Or.inl ⟨_, rfl⟩
    · exact Or.inr (List.mem_singleton.mp he)
  · refine ⟨rfl, self.resolve_targets.map (fun t => Event.resolve t.dns_address), rfl, ?_⟩
    intro e he
    obtain ⟨t, _, rfl⟩ := List.mem_map.mp he
    exact Or.inl ⟨_, rfl⟩

theorem startResolve_eq {β : Type} (self : DnsClusterImpl β) (i : Nat) (target : ResolveTarget)
    (ht : self.resolve_targets[i]? = some target) :
    startResolve self i =
      { self with
        stats := { self.stats with update_attempt := self.stats.update_attempt + 1 }
        resolve_targets :=
          self.resolve_targets.set i { target with active_query := true, resolve_timer := none }
        trace := self.trace ++ [Event.resolve target.dns_address] } := by
  simp only [startResolve, ht]

theorem mem_of_getElem? {α : Type} {l : List α} {i : Nat} {a : α} (h : l[i]? = some a) :
    a ∈ l := by
  obtain ⟨hi, rfl⟩ := List.getElem?_eq_some.mp h
  exact List.getElem_mem _

/-- A property of targets that holds for idle targets and is kept by `startResolve` and by
the three ways through the completion callback holds for every target of every reachable
state. -/
theorem reachable_targets_invariant {β : Type} (env : Env β) (P : ResolveTarget → Prop)
    (hidle : ∀ t : ResolveTarget, t.Idle → P t)
    (hstart : ∀ t : ResolveTarget, P t → P { t with active_query := true, resolve_timer := none })
    (hfail : ∀ (t : ResolveTarget) (d : Int), P t →
      P { t with active_query := false, resolve_timer := some d })
    (habort : ∀ t : ResolveTarget, P t → P { t with active_query := false })
    (hsucc : ∀ (t : ResolveTarget) (single : Bool) (response : List DnsResponse) (uid : Nat)
      (locals : RoundLocals) (d : Int), P t →
      responseLoop env single { t with active_query := false } response (RoundLocals.init uid) =
        Except.ok locals →
      P { targetAfterUpdate t (roundUpdate env t locals) with resolve_timer := some d })
    (started : Bool) (c : DnsClusterImpl β) (h : Reachable env started c) :
    ∀ t ∈ c.resolve_targets, P t := by
  induction h with
  | created backoff base_status cfg c hc =>
    intro t ht
    exact hidle t ((create_idle env backoff base_status cfg c hc).1 t ht)
  | preInit c _ ih =>
    intro t ht
    rw [(startPreInit_eq c).1] at ht
    obtain ⟨t0, ht0, rfl⟩ := List.mem_map.mp ht
    exact hstart t0 (ih t0 ht0)
  | timerFires c i target _ hget _ ih =>
    intro t ht
    rw [startResolve_eq c i target hget] at ht
    rcases List.mem_or_eq_of_mem_set ht with ht | rfl
    · exact ih t ht
    · exact hstart target (ih target (mem_of_getElem? hget))
  | queryCompletes c i target status response random _ hget _ ih =>
    intro t ht
    have hP := ih target (mem_of_getElem? hget)
    by_cases hs : ResolveTarget.isSuccessfulResponse c.all_addresses_in_single_endpoint response
        status = true
    · cases hl : responseLoop env c.all_addresses_in_single_endpoint
          { target with active_query := false } response (RoundLocals.init c.next_host_uid) with
      | error e =>
        rw [onResolveComplete_abort env c i target status response random e hget hs hl] at ht
        rcases List.mem_or_eq_of_mem_set ht with ht | rfl
        · exact ih t ht
        · exact habort target hP
      | ok locals =>
        rw [onResolveComplete_success_eq env c i target status response random locals hget hs hl]
          at ht
        rcases List.mem_or_eq_of_mem_set ht with ht | rfl
        · exact ih t ht
        · exact hsucc target _ response _ locals _ hP hl
    · have hs' : ResolveTarget.isSuccessfulResponse c.all_addresses_in_single_endpoint response
          status = false := by simpa using hs
      rw [onResolveComplete_failure env c i target status response random hget hs'] at ht
      simp only [finishRound] at ht
      rcases List.mem_or_eq_of_mem_set ht with ht | rfl
      · exact ih t ht
      · exact hfail target _ hP

/-- C17: in every reachable state no target has its timer armed while its query is active;
before `startPreInit` no target has an active query; and whenever a timer is armed, so that
it can fire and run `startResolve`, the query of its target is null. Hence `startResolve`
only ever runs on a target without an active query, and at most one query per target is in
flight. -/
theorem at_most_one_query_in_flight {β : Type} (env : Env β) (started : Bool)
    (c : DnsClusterImpl β) (h : Reachable env started c) :
    (∀ t ∈ c.resolve_targets, t.active_query = true → t.resolve_timer = none) ∧
      (started = false → ∀ t ∈ c.resolve_targets, t.active_query = false) ∧
      (∀ (i : Nat) (t : ResolveTarget), c.resolve_targets[i]? = some t →
        t.resolve_timer.isSome = true → t.active_query = false) := by
  have hinv : ∀ t ∈ c.resolve_targets, t.active_query = true → t.resolve_timer = none :=
    reachable_targets_invariant env
      (fun t => t.active_query = true → t.resolve_timer = none)
      (fun t ht _ => ht.2.2.2)
      (fun _ _ _ => rfl)
      (fun _ _ _ hq => by cases hq)
      (fun _ _ hq => by cases hq)
      (fun _ _ _ _ _ _ _ _ hq => by simp [targetAfterUpdate] at hq)
      started c h
  refine ⟨hinv, ?_, ?_⟩
  · intro hst
    subst hst
    cases h with
    | created backoff base_status cfg c hc =>
      intro t ht
      exact ((create_idle env backoff base_status cfg c hc).1 t ht).2.2.1
  · intro i t hget htimer
    cases hq : t.active_query with
    | false => rfl
    | true =>
      have := hinv t (mem_of_getElem? hget) hq
      rw [this] at htimer
      cases htimer

/-- Witness of C17: the example cluster after `startPreInit` and a completed round. -/
theorem at_most_one_query_in_flight_witness :
    (onResolveComplete exampleEnv (exampleCluster false 0).startPreInit 0
        ResolutionStatus.Completed [entry "10.0.0.1" 30] 0).resolve_targets.all
      (fun t => !t.active_query || t.resolve_timer.isNone) = true :=
  List.all_eq_true.mpr (fun t ht => by
    have h := (at_most_one_query_in_flight exampleEnv true
      (onResolveComplete exampleEnv (exampleCluster false 0).startPreInit 0
        ResolutionStatus.Completed [entry "10.0.0.1" 30] 0)
      (Reachable.queryCompletes (exampleCluster false 0).startPreInit 0
        { exampleTarget with active_query := true } ResolutionStatus.Completed
        [entry "10.0.0.1" 30] 0
        (Reachable.preInit (exampleCluster false 0)
          (Reachable.created 0 OkStatus
            (exampleConfig false [exampleLocality [exampleEndpoint "foo.example" 443]])
            (exampleCluster false 0) rfl))
        (by decide) rfl)).1 t ht
    cases hq : t.active_query with
    | false => rfl
    | true => simp [h hq])

/-! ## The host map and the priorities of the hosts -/

theorem HostMap.mem_erase (m : HostMap) (key : String) (kv : String × Host) :
    kv ∈ HostMap.erase m key ↔ kv ∈ m ∧ kv.1 ≠ key := by
  simp [HostMap.erase, List.mem_filter]

theorem HostMap.mem_insert (m : HostMap) (key : String) (host : Host) (kv : String × Host) :
    kv ∈ HostMap.insert m key host ↔ kv ∈ m ∨ (key ∉ m.map Prod.fst ∧ kv = (key, host)) := by
  unfold HostMap.insert
  by_cases h : m.any (fun kv => kv.1 == key) = true
  · have hk : key ∈ m.map Prod.fst := by
      simp only [List.any_eq_true, beq_iff_eq] at h
      obtain ⟨x, hx, rfl⟩ := h
      exact List.mem_map_of_mem _ hx
    simp [h, hk]
  · have hk : key ∉ m.map Prod.fst := by
      intro hk
      apply h
      obtain ⟨x, hx, rfl⟩ := List.mem_map.mp hk
      simp only [List.any_eq_true, beq_iff_eq]
      exact ⟨x, hx, rfl⟩
    simp [h, hk]

theorem mem_foldl_erase (removed : HostVector) :
    ∀ (m : HostMap) (kv : String × Host),
      kv ∈ removed.foldl (fun m host => HostMap.erase m host.address.asString) m ↔
        kv ∈ m ∧ ∀ host ∈ removed, kv.1 ≠ host.address.asString := by
  induction removed with
  | nil => intro m kv; simp
  | cons x xs ih =>
    intro m kv
    simp only [List.foldl_cons, ih, HostMap.mem_erase, List.mem_cons, forall_eq_or_imp]
    tauto

theorem mem_foldl_insert (added : HostVector) :
    ∀ (m : HostMap) (kv : String × Host),
      kv ∈ added.foldl (fun m host => HostMap.insert m host.address.asString host) m →
        kv ∈ m ∨ ∃ host ∈ added, kv = (host.address.asString, host) := by
  induction added with
  | nil => intro m kv h; exact Or.inl h
  | cons x xs ih =>
    intro m kv h
    simp only [List.foldl_cons] at h
    rcases ih _ kv h with h | ⟨host, hh, rfl⟩
    · rcases (HostMap.mem_insert m _ x kv).mp h with h | ⟨_, rfl⟩
      · exact Or.inl h
      · exact Or.inr ⟨x, List.mem_cons_self _ _, rfl⟩
    · exact Or.inr ⟨host, List.mem_cons_of_mem _ hh, rfl⟩

theorem mem_updateHostMap (m : HostMap) (added removed : HostVector) (kv : String × Host)
    (h : kv ∈ updateHostMap m added removed) :
    kv ∈ m ∨ ∃ host ∈ added, kv = (host.address.asString, host) := by
  rcases mem_foldl_insert added _ kv h with h | h
  · exact Or.inl ((mem_foldl_erase removed m kv).mp h).1
  · exact Or.inr h

theorem mem_registeredHosts (targets : List ResolveTarget) (current_priority : Nat)
    (host : Host) :
    host ∈ registeredHosts targets current_priority ↔
      ∃ target ∈ targets,
        target.locality_lb_endpoints.priority = current_priority ∧ host ∈ target.hosts := by
  unfold registeredHosts
  rw [registeredHosts_eq_aux]
  simp only [List.nil_append, List.mem_flatten, List.mem_map, List.mem_filter, beq_iff_eq]
  constructor
  · rintro ⟨l, ⟨t, ⟨ht, hp⟩, rfl⟩, hh⟩
    exact ⟨t, ht, hp, hh⟩
  · rintro ⟨t, ht, hp, hh⟩
    exact ⟨t.hosts, ⟨t, ⟨ht, hp⟩, rfl⟩, hh⟩

/-- Every host the response loop adds to `new_hosts` has the priority of the target. -/
theorem responseLoop_priority {β : Type} (env : Env β) (single : Bool) (target : ResolveTarget)
    (response : List DnsResponse) :
    ∀ (locals out : RoundLocals),
      responseLoop env single target response locals = Except.ok out →
      (∀ host ∈ locals.new_hosts, host.priority = target.locality_lb_endpoints.priority) →
      ∀ host ∈ out.new_hosts, host.priority = target.locality_lb_endpoints.priority := by
  induction response with
  | nil =>
    intro locals out h hin
    simp only [responseLoop, Except.ok.injEq] at h
    subst h
    exact hin
  | cons resp rest ih =>
    intro locals out h hin
    by_cases hseen : (getAddressWithPort resp.address target.port).asString ∈ locals.all_new_hosts
    · simp only [responseLoop, hseen, if_true] at h
      exact ih locals out h hin
    · cases hcreate : env.hostCreateError
          (HostImpl.new locals.next_host_uid target
            (getAddressWithPort resp.address target.port)) with
      | some e => simp [responseLoop, hseen, HostImpl.create, hcreate] at h
      | none =>
        have hin' : ∀ host ∈ locals.new_hosts ++
            [HostImpl.new locals.next_host_uid target
              (getAddressWithPort resp.address target.port)],
            host.priority = target.locality_lb_endpoints.priority := by
          intro host hh
          rcases List.mem_append.mp hh with hh | hh
          · exact hin host hh
          · rw [List.mem_singleton.mp hh]; rfl
        cases single with
        | true =>
          simp only [responseLoop, hseen, if_false, HostImpl.create, hcreate, if_true,
            Except.ok.injEq] at h
          subst h
          exact hin'
        | false =>
          simp only [responseLoop, hseen, if_false, HostImpl.create, hcreate,
            Bool.false_eq_true] at h
          exact ih _ out h hin'

/-- A successful round keeps the priorities when the differ returns only hosts it was
given. -/
theorem priority_kept_by_update {β : Type} (env : Env β) (hd : DifferReturnsGivenHosts env)
    (t : ResolveTarget) (single : Bool) (response : List DnsResponse) (uid : Nat)
    (locals : RoundLocals) (hP : t.HostsHavePriority)
    (hl : responseLoop env single { t with active_query := false } response
      (RoundLocals.init uid) = Except.ok locals) :
    (targetAfterUpdate t (roundUpdate env t locals)).HostsHavePriority := by
  have hnew : ∀ host ∈ locals.new_hosts, host.priority = t.locality_lb_endpoints.priority :=
    responseLoop_priority env single { t with active_query := false } response
      (RoundLocals.init uid) locals hl (by intro host hh; cases hh)
  have hgiven : ∀ host : Host,
      host ∈ (roundUpdate env t locals).current_priority_hosts ∨
        host ∈ (roundUpdate env t locals).hosts_added →
      host.priority = t.locality_lb_endpoints.priority := by
    intro host hh
    rcases hd locals.new_hosts t.hosts t.all_hosts locals.all_new_hosts host hh with h | h | h
    · exact hnew host h
    · exact hP.1 host h
    · obtain ⟨kv, hkv, rfl⟩ := List.mem_map.mp h
      exact hP.2 kv hkv
  refine ⟨fun host hh => hgiven host (Or.inl hh), ?_⟩
  intro kv hkv
  simp only [targetAfterUpdate] at hkv
  split at hkv
  · rcases mem_updateHostMap _ _ _ kv hkv with h | ⟨host, hh, rfl⟩
    · exact hP.2 kv h
    · exact hgiven host (Or.inr hh)
  · exact hP.2 kv hkv

theorem reachable_hosts_have_priority {β : Type} (env : Env β)
    (hd : DifferReturnsGivenHosts env) (started : Bool) (c : DnsClusterImpl β)
    (h : Reachable env started c) : ∀ t ∈ c.resolve_targets, t.HostsHavePriority :=
  reachable_targets_invariant env (fun t => t.HostsHavePriority)
    (fun t ht =>
      ⟨(by rw [ht.1]; intro host hh; cases hh), (by rw [ht.2.1]; intro kv hh; cases hh)⟩)
    (fun _ hP => hP)
    (fun _ _ hP => hP)
    (fun _ hP => hP)
    (fun t single response uid locals _ hP hl =>
      priority_kept_by_update env hd t single response uid locals hP hl)
    started c h

/-- Every list recorded as published for a priority holds hosts of that priority only. -/
theorem reachable_published_priority {β : Type} (env : Env β)
    (hd : DifferReturnsGivenHosts env) (started : Bool) (c : DnsClusterImpl β)
    (h : Reachable env started c) :
    ∀ (p : Nat) (hosts added removed : HostVector) (w : Bool) (o : Nat),
      Event.updateClusterPrioritySet p hosts added removed w o ∈ c.trace →
      ∀ host ∈ hosts, host.priority = p := by
  induction h with
  | created backoff base_status cfg c hc =>
    intro p hosts added removed w o he
    rw [(create_idle env backoff base_status cfg c hc).2] at he
    cases he
  | preInit c _ ih =>
    intro p hosts added removed w o he
    obtain ⟨events, htrace, hev⟩ := (startPreInit_eq c).2
    rw [htrace] at he
    rcases List.mem_append.mp he with he | he
    · exact ih p hosts added removed w o he
    · rcases hev _ he with ⟨a, ha⟩ | ha <;> cases ha
  | timerFires c i target _ hget _ ih =>
    intro p hosts added removed w o he
    rw [startResolve_eq c i target hget] at he
    rcases List.mem_append.mp he with he | he
    · exact ih p hosts added removed w o he
    · simp at he
  | queryCompletes c i target status response random hreach hget _ ih =>
    intro p hosts added removed w o he
    by_cases hs : ResolveTarget.isSuccessfulResponse c.all_addresses_in_single_endpoint response
        status = true
    · cases hl : responseLoop env c.all_addresses_in_single_endpoint
          { target with active_query := false } response (RoundLocals.init c.next_host_uid) with
      | error e =>
        rw [onResolveComplete_abort env c i target status response random e hget hs hl] at he
        exact ih p hosts added removed w o he
      | ok locals =>
        rw [onResolveComplete_success_eq env c i target status response random locals hget hs hl]
          at he
        simp only [List.append_assoc, List.mem_append] at he
        rcases he with he | he | he | he | he
        · exact ih p hosts added removed w o he
        · split at he
          · simp only [List.mem_singleton, Event.updateClusterPrioritySet.injEq] at he
            obtain ⟨rfl, rfl, _, _, _, _⟩ := he
            intro host hh
            obtain ⟨t, ht, hp, hh⟩ := (mem_registeredHosts _ _ host).mp hh
            have hall := reachable_hosts_have_priority env hd true c hreach
            rcases List.mem_or_eq_of_mem_set ht with ht | rfl
            · rw [← hp]; exact (hall t ht).1 host hh
            · exact (priority_kept_by_update env hd target _ response _ locals
                (hall target (mem_of_getElem? hget)) hl).1 host hh
          · cases he
        · simp at he
        · split at he <;> simp at he
        · simp at he
    · have hs' : ResolveTarget.isSuccessfulResponse c.all_addresses_in_single_endpoint response
          status = false := by simpa using hs
      rw [onResolveComplete_failure env c i target status response random hget hs'] at he
      simp only [finishRound, List.mem_append] at he
      rcases he with (he | he) | he
      · exact ih p hosts added removed w o he
      · simp at he
      · simp at he

/-- C14: every host a target creates carries the priority of the target's locality group;
and, given that the differ returns only hosts it was handed, in every reachable state every
host of a target's `hosts_` has the target's priority (the ASSERT of the callback), every
host `updateAllHosts` would publish for priority p has priority p, and so has every host of
every list that was published for p. -/
theorem hosts_carry_target_priority {β : Type} (env : Env β) (started : Bool)
    (c : DnsClusterImpl β) (h : Reachable env started c) (hd : DifferReturnsGivenHosts env) :
    (∀ (uid : Nat) (target : ResolveTarget) (address : Address) (host : Host),
        HostImpl.create env uid target address = Except.ok host →
        host.priority = target.locality_lb_endpoints.priority) ∧
      (∀ target ∈ c.resolve_targets, ∀ host ∈ target.hosts,
        host.priority = target.locality_lb_endpoints.priority) ∧
      (∀ (p : Nat), ∀ host ∈ registeredHosts c.resolve_targets p, host.priority = p) ∧
      (∀ (p : Nat) (hosts added removed : HostVector) (w : Bool) (o : Nat),
        Event.updateClusterPrioritySet p hosts added removed w o ∈ c.trace →
        ∀ host ∈ hosts, host.priority = p) := by
  have hall := reachable_hosts_have_priority env hd started c h
  refine ⟨?_, fun t ht => (hall t ht).1, ?_, reachable_published_priority env hd started c h⟩
  · intro uid target address host hcreate
    unfold HostImpl.create at hcreate
    split at hcreate
    · cases hcreate
    · simp only [Except.ok.injEq] at hcreate
      rw [← hcreate]; rfl
  · intro p host hh
    obtain ⟨t, ht, hp, hh⟩ := (mem_registeredHosts _ _ host).mp hh
    rw [← hp]
    exact (hall t ht).1 host hh

/-! ## The host map after a successful round -/

/-- The address strings of `new_hosts` and the set `all_new_hosts` grow together. -/
theorem responseLoop_keys {β : Type} (env : Env β) (single : Bool) (target : ResolveTarget)
    (response : List DnsResponse) :
    ∀ (locals out : RoundLocals),
      responseLoop env single target response locals = Except.ok out →
      addressStrings locals.new_hosts = locals.all_new_hosts →
      addressStrings out.new_hosts = out.all_new_hosts := by
  induction response with
  | nil =>
    intro locals out h hin
    simp only [responseLoop, Except.ok.injEq] at h
    subst h
    exact hin
  | cons resp rest ih =>
    intro locals out h hin
    by_cases hseen : (getAddressWithPort resp.address target.port).asString ∈ locals.all_new_hosts
    · simp only [responseLoop, hseen, if_true] at h
      exact ih locals out h hin
    · cases hcreate : env.hostCreateError
          (HostImpl.new locals.next_host_uid target
            (getAddressWithPort resp.address target.port)) with
      | some e => simp [responseLoop, hseen, HostImpl.create, hcreate] at h
      | none =>
        have hin' : addressStrings (locals.new_hosts ++
            [HostImpl.new locals.next_host_uid target
              (getAddressWithPort resp.address target.port)]) =
            locals.all_new_hosts ++ [(getAddressWithPort resp.address target.port).asString] := by
          simp only [addressStrings, List.map_append, List.map_cons, List.map_nil] at hin ⊢
          rw [hin]
          rfl
        cases single with
        | true =>
          simp only [responseLoop, hseen, if_false, HostImpl.create, hcreate, if_true,
            Except.ok.injEq] at h
          subst h
          exact hin'
        | false =>
          simp only [responseLoop, hseen, if_false, HostImpl.create, hcreate,
            Bool.false_eq_true] at h
          exact ih _ out h hin'

theorem HostMap.wellFormed_erase (m : HostMap) (key : String) (h : HostMap.WellFormed m) :
    HostMap.WellFormed (HostMap.erase m key) := by
  refine ⟨List.Nodup.sublist (List.Sublist.map _ (List.filter_sublist _)) h.1, ?_⟩
  intro kv hkv
  exact h.2 kv ((HostMap.mem_erase m key kv).mp hkv).1

theorem HostMap.wellFormed_insert (m : HostMap) (host : Host) (h : HostMap.WellFormed m) :
    HostMap.WellFormed (HostMap.insert m host.address.asString host) := by
  unfold HostMap.insert
  split
  · exact h
  · rename_i hany
    have hk : host.address.asString ∉ m.map Prod.fst := by
      intro hk
      apply hany
      obtain ⟨x, hx, hx'⟩ := List.mem_map.mp hk
      simp only [List.any_eq_true, beq_iff_eq]
      exact ⟨x, hx, hx'⟩
    refine ⟨?_, ?_⟩
    · rw [List.map_append, List.nodup_append]
      refine ⟨h.1, by simp, ?_⟩
      intro a ha hb
      simp only [List.map_cons, List.map_nil, List.mem_singleton] at hb
      subst hb
      exact hk ha
    · intro kv hkv
      rcases List.mem_append.mp hkv with hkv | hkv
      · exact h.2 kv hkv
      · rw [List.mem_singleton.mp hkv]

theorem wellFormed_foldl_erase (removed : HostVector) :
    ∀ m : HostMap, HostMap.WellFormed m →
      HostMap.WellFormed
        (removed.foldl (fun m host => HostMap.erase m host.address.asString) m) := by
  induction removed with
  | nil => intro m h; exact h
  | cons x xs ih =>
    intro m h
    exact ih _ (HostMap.wellFormed_erase m _ h)

theorem wellFormed_foldl_insert (added : HostVector) :
    ∀ m : HostMap, HostMap.WellFormed m →
      HostMap.WellFormed
        (added.foldl (fun m host => HostMap.insert m host.address.asString host) m) := by
  induction added with
  | nil => intro m h; exact h
  | cons x xs ih =>
    intro m h
    exact ih _ (HostMap.wellFormed_insert m x h)

theorem keys_foldl_insert (added : HostVector) :
    ∀ (m : HostMap) (k : String),
      k ∈ (added.foldl (fun m host => HostMap.insert m host.address.asString host) m).map
          Prod.fst ↔
        k ∈ m.map Prod.fst ∨ ∃ host ∈ added, host.address.asString = k := by
  induction added with
  | nil => intro m k; simp
  | cons x xs ih =>
    intro m k
    simp only [List.foldl_cons, ih, List.mem_cons, exists_eq_or_imp]
    have hstep : k ∈ (HostMap.insert m x.address.asString x).map Prod.fst ↔
        k ∈ m.map Prod.fst ∨ x.address.asString = k := by
      simp only [List.mem_map, HostMap.mem_insert]
      constructor
      · rintro ⟨kv, hkv | ⟨_, rfl⟩, rfl⟩
        · exact Or.inl ⟨kv, hkv, rfl⟩
        · exact Or.inr rfl
      · rintro (⟨kv, hkv, rfl⟩ | rfl)
        · exact ⟨kv, Or.inl hkv, rfl⟩
        · by_cases hin : x.address.asString ∈ m.map Prod.fst
          · obtain ⟨kv, hkv, hk⟩ := List.mem_map.mp hin
            exact ⟨kv, Or.inl hkv, hk⟩
          · exact ⟨(x.address.asString, x), Or.inr ⟨by simpa using hin, rfl⟩, rfl⟩
    rw [hstep]
    tauto

theorem subset_foldl_insert (added : HostVector) :
    ∀ (m : HostMap) (kv : String × Host), kv ∈ m →
      kv ∈ added.foldl (fun m host => HostMap.insert m host.address.asString host) m := by
  induction added with
  | nil => intro m kv h; exact h
  | cons x xs ih =>
    intro m kv h
    exact ih _ kv ((HostMap.mem_insert m _ x kv).mpr (Or.inl h))

/-- The host map after the update of a successful round, under the contract of the differ:
it is well formed, its keys are the address strings of the round, and every entry whose
key is still resolved is kept as it was. -/
theorem round_host_map {β : Type} (env : Env β) (hd : DifferFollowsSpec env)
    (t : ResolveTarget) (locals : RoundLocals) (hwf : HostMap.WellFormed t.all_hosts)
    (hkeys : addressStrings locals.new_hosts = locals.all_new_hosts) :
    HostMap.WellFormed (targetAfterUpdate t (roundUpdate env t locals)).all_hosts ∧
      (∀ k : String,
        k ∈ (targetAfterUpdate t (roundUpdate env t locals)).all_hosts.map Prod.fst ↔
          k ∈ locals.all_new_hosts) ∧
      (∀ kv ∈ t.all_hosts, kv.1 ∈ locals.all_new_hosts →
        kv ∈ (targetAfterUpdate t (roundUpdate env t locals)).all_hosts) := by
  obtain ⟨hadd, hrem, hchg⟩ := hd locals.new_hosts t.hosts t.all_hosts locals.all_new_hosts
  have hnew : ∀ k : String, k ∈ locals.all_new_hosts ↔
      ∃ host ∈ locals.new_hosts, host.address.asString = k := by
    intro k
    rw [← hkeys]
    simp [addressStrings]
  -- an entry of the previous map survives the erasures exactly when its key is resolved
  have hsurvive : ∀ kv ∈ t.all_hosts,
      ((∀ host ∈ (roundUpdate env t locals).hosts_removed, kv.1 ≠ host.address.asString) ↔
        kv.1 ∈ locals.all_new_hosts) := by
    intro kv hkv
    constructor
    · intro hall
      by_contra hnot
      have hmem : kv.2 ∈ (roundUpdate env t locals).hosts_removed :=
        (hrem kv.2).mpr ⟨List.mem_map_of_mem _ hkv, by rw [hwf.2 kv hkv]; exact hnot⟩
      exact hall kv.2 hmem (hwf.2 kv hkv).symm
    · intro hin host hh heq
      exact ((hrem host).mp hh).2 (heq ▸ hin)
  by_cases hc : (roundUpdate env t locals).changed = true
  · have hmap : (targetAfterUpdate t (roundUpdate env t locals)).all_hosts =
        updateHostMap t.all_hosts (roundUpdate env t locals).hosts_added
          (roundUpdate env t locals).hosts_removed := by
      simp [targetAfterUpdate, hc]
    rw [hmap]
    refine ⟨wellFormed_foldl_insert _ _ (wellFormed_foldl_erase _ _ hwf), ?_, ?_⟩
    · intro k
      unfold updateHostMap
      rw [keys_foldl_insert]
      constructor
      · rintro (hk | ⟨host, hh, rfl⟩)
        · obtain ⟨kv, hkv, rfl⟩ := List.mem_map.mp hk
          obtain ⟨hkv, hall⟩ := (mem_foldl_erase _ _ kv).mp hkv
          exact (hsurvive kv hkv).mp hall
        · exact (hnew _).mpr ⟨host, ((hadd host).mp hh).1, rfl⟩
      · intro hk
        by_cases hin : k ∈ t.all_hosts.map Prod.fst
        · left
          obtain ⟨kv, hkv, rfl⟩ := List.mem_map.mp hin
          exact List.mem_map_of_mem _
            ((mem_foldl_erase _ _ kv).mpr ⟨hkv, (hsurvive kv hkv).mpr hk⟩)
        · right
          obtain ⟨host, hh, rfl⟩ := (hnew k).mp hk
          exact ⟨host, (hadd host).mpr ⟨hh, hin⟩, rfl⟩
    · intro kv hkv hk
      exact subset_foldl_insert _ _ kv
        ((mem_foldl_erase _ _ kv).mpr ⟨hkv, (hsurvive kv hkv).mpr hk⟩)
  · have hmap : (targetAfterUpdate t (roundUpdate env t locals)).all_hosts = t.all_hosts := by
      simp [targetAfterUpdate, hc]
    have hnone : (roundUpdate env t locals).hosts_added = [] ∧
        (roundUpdate env t locals).hosts_removed = [] := by
      by_contra hne
      apply hc
      apply hchg.mpr
      by_cases ha : (roundUpdate env t locals).hosts_added = []
      · right; intro hr; exact hne ⟨ha, hr⟩
      · left; exact ha
    rw [hmap]
    refine ⟨hwf, ?_, fun kv hkv _ => hkv⟩
    intro k
    constructor
    · intro hk
      obtain ⟨kv, hkv, rfl⟩ := List.mem_map.mp hk
      apply (hsurvive kv hkv).mp
      intro host hh
      rw [hnone.2] at hh
      cases hh
    · intro hk
      by_contra hin
      obtain ⟨host, hh, rfl⟩ := (hnew k).mp hk
      have : host ∈ (roundUpdate env t locals).hosts_added := (hadd host).mpr ⟨hh, hin⟩
      rw [hnone.1] at this
      cases this

/-- When the keys of the map already are the address strings of the round, the differ
reports no change. -/
theorem round_unchanged {β : Type} (env : Env β) (hd : DifferFollowsSpec env)
    (t : ResolveTarget) (locals : RoundLocals) (hwf : HostMap.WellFormed t.all_hosts)
    (hkeys : addressStrings locals.new_hosts = locals.all_new_hosts)
    (hsame : ∀ k : String, k ∈ t.all_hosts.map Prod.fst ↔ k ∈ locals.all_new_hosts) :
    (roundUpdate env t locals).changed = false := by
  obtain ⟨hadd, hrem, hchg⟩ := hd locals.new_hosts t.hosts t.all_hosts locals.all_new_hosts
  cases hc : (roundUpdate env t locals).changed with
  | false => rfl
  | true =>
    exfalso
    rcases hchg.mp hc with ha | hr
    · obtain ⟨host, hh⟩ := List.exists_mem_of_ne_nil _ ha
      obtain ⟨hnew, hnot⟩ := (hadd host).mp hh
      apply hnot
      apply (hsame _).mpr
      rw [← hkeys]
      exact List.mem_map_of_mem _ hnew
    · obtain ⟨host, hh⟩ := List.exists_mem_of_ne_nil _ hr
      obtain ⟨hval, hnot⟩ := (hrem host).mp hh
      obtain ⟨kv, hkv, rfl⟩ := List.mem_map.mp hval
      apply hnot
      rw [hwf.2 kv hkv]
      exact (hsame _).mp (List.mem_map_of_mem _ hkv)

theorem reachable_map_wellFormed {β : Type} (env : Env β) (hd : DifferFollowsSpec env)
    (started : Bool) (c : DnsClusterImpl β) (h : Reachable env started c) :
    ∀ t ∈ c.resolve_targets, HostMap.WellFormed t.all_hosts :=
  reachable_targets_invariant env (fun t => HostMap.WellFormed t.all_hosts)
    (fun t ht => by
      show HostMap.WellFormed t.all_hosts
      rw [ht.2.1]
      exact ⟨List.nodup_nil, fun kv hkv => by cases hkv⟩)
    (fun _ hP => hP)
    (fun _ _ hP => hP)
    (fun _ hP => hP)
    (fun t single response uid locals _ hP hl =>
      (round_host_map env hd t locals hP
        (responseLoop_keys env single { t with active_query := false } response
          (RoundLocals.init uid) locals hl rfl)).1)
    started c h

/-- The differ modelled from the spec satisfies the contract. -/
theorem exampleEnv_follows_spec : DifferFollowsSpec exampleEnv := by
  intro new_hosts current all_hosts all_new_hosts
  refine ⟨?_, ?_, ?_⟩
  · intro host
    simp only [exampleEnv, specUpdateDynamicHostList, List.mem_filter, List.mem_map]
    simp only [Bool.not_eq_true', List.any_eq_false, beq_iff_eq, and_congr_right_iff]
    intro _
    constructor
    · rintro h ⟨kv, hkv, hk⟩
      exact h kv hkv hk
    · intro h kv hkv hk
      exact h ⟨kv, hkv, hk⟩
  · intro host
    simp only [exampleEnv, specUpdateDynamicHostList, List.mem_filter]
    simp
  · simp only [exampleEnv, specUpdateDynamicHostList]
    simp [List.isEmpty_iff]

/-- The differ modelled from the spec returns only hosts it was given. -/
theorem exampleEnv_returns_given_hosts : DifferReturnsGivenHosts exampleEnv := by
  intro new_hosts current all_hosts all_new_hosts host h
  simp only [exampleEnv, specUpdateDynamicHostList] at h
  rcases h with h | h
  · obtain ⟨x, hx, rfl⟩ := List.mem_map.mp h
    cases hf : all_hosts.find? (fun kv => kv.1 == x.address.asString) with
    | none => left; simpa [hf] using hx
    | some kv =>
      right; right
      simp only [hf]
      exact List.mem_map_of_mem _ (List.mem_of_find?_eq_some hf)
  · exact Or.inl (List.mem_filter.mp h).1

/-- Witness of C14: after `startPreInit` and a completed round of the example cluster,
every host registered for priority 0 has priority 0. -/
theorem hosts_carry_target_priority_witness :
    (registeredHosts
        (onResolveComplete exampleEnv (exampleCluster false 0).startPreInit 0
          ResolutionStatus.Completed [entry "10.0.0.1" 30] 0).resolve_targets 0).all
      (fun host => host.priority == 0) = true :=
  List.all_eq_true.mpr (fun host hh => beq_iff_eq.mpr
    ((hosts_carry_target_priority exampleEnv true
      (onResolveComplete exampleEnv (exampleCluster false 0).startPreInit 0
        ResolutionStatus.Completed [entry "10.0.0.1" 30] 0)
      (Reachable.queryCompletes (exampleCluster false 0).startPreInit 0
        { exampleTarget with active_query := true } ResolutionStatus.Completed
        [entry "10.0.0.1" 30] 0
        (Reachable.preInit (exampleCluster false 0)
          (Reachable.created 0 OkStatus
            (exampleConfig false [exampleLocality [exampleEndpoint "foo.example" 443]])
            (exampleCluster false 0) rfl))
        (by decide) rfl)
      exampleEnv_returns_given_hosts).2.2.1 0 host hh))

/-- C19: under the contract of the differ, after every successful round of a target in a
reachable state (host construction succeeds for every address; the differ may report a
change or none) the keys of the target's `all_hosts_` are exactly the address strings of
the round (`all_new_hosts`, the address strings of the contributing entries), the keys are
distinct and each maps to a host whose address string is that key, and every entry of the
previous map whose key is still resolved is kept with its previous host object. -/
theorem host_map_tracks_round {β : Type} (env : Env β) (started : Bool) (c : DnsClusterImpl β)
    (hreach : Reachable env started c) (hd : DifferFollowsSpec env) (i : Nat)
    (target : ResolveTarget) (status : ResolutionStatus) (response : List DnsResponse)
    (random : Nat) (ht : c.resolve_targets[i]? = some target)
    (hs : ResolveTarget.isSuccessfulResponse c.all_addresses_in_single_endpoint response
      status = true)
    (hc : ConstructionSucceeds env target response) :
    ∃ (after : ResolveTarget) (locals : RoundLocals),
      (onResolveComplete env c i status response random).resolve_targets[i]? = some after ∧
      responseLoop env c.all_addresses_in_single_endpoint { target with active_query := false }
        response (RoundLocals.init c.next_host_uid) = Except.ok locals ∧
      locals.all_new_hosts =
        (contributingEntries c.all_addresses_in_single_endpoint target.port response).map
          (entryKey target.port) ∧
      (∀ k : String, k ∈ after.all_hosts.map Prod.fst ↔ k ∈ locals.all_new_hosts) ∧
      (after.all_hosts.map Prod.fst).Nodup ∧
      (∀ kv ∈ after.all_hosts, kv.2.address.asString = kv.1) ∧
      (∀ kv ∈ target.all_hosts, kv.1 ∈ locals.all_new_hosts → kv ∈ after.all_hosts) := by
  obtain ⟨locals, hl, _, hset, _⟩ :=
    responseLoop_ok env c.all_addresses_in_single_endpoint
      { target with active_query := false } response hc (RoundLocals.init c.next_host_uid)
  have hkeys := responseLoop_keys env c.all_addresses_in_single_endpoint
    { target with active_query := false } response (RoundLocals.init c.next_host_uid) locals hl rfl
  have hwf := reachable_map_wellFormed env hd started c hreach target (mem_of_getElem? ht)
  obtain ⟨hwf', hk, hpersist⟩ := round_host_map env hd target locals hwf hkeys
  have heq := onResolveComplete_success_eq env c i target status response random locals ht hs hl
  have hi := lt_length_of_getElem? ht
  refine ⟨{ targetAfterUpdate target (roundUpdate env target locals) with
      resolve_timer :=
        some (successRefreshRate c.dns_refresh_rate_ms c.dns_jitter_ms c.respect_dns_ttl
          response locals.ttl_refresh_rate random) },
    locals, ?_, hl, ?_, hk, hwf'.1, hwf'.2, hpersist⟩
  · rw [heq]
    simp only [List.getElem?_set, hi, if_true]
  · rw [hset]
    simp only [RoundLocals.init, keptFrom_nil_seen, List.nil_append]

/-- Witness of C19: the first successful round of the example cluster maps `10.0.0.1:443`
and `10.0.0.2:443`, the two address strings of the round. -/
theorem host_map_tracks_round_witness :
    ∃ (after : ResolveTarget) (locals : RoundLocals),
      (onResolveComplete exampleEnv (exampleCluster false 0).startPreInit 0
          ResolutionStatus.Completed [entry "10.0.0.1" 30, entry "10.0.0.2" 40]
          0).resolve_targets[0]? = some after ∧
      locals.all_new_hosts = ["10.0.0.1:443", "10.0.0.2:443"] ∧
      (∀ k : String, k ∈ after.all_hosts.map Prod.fst ↔ k ∈ locals.all_new_hosts) ∧
      (∀ kv ∈ after.all_hosts, kv.2.address.asString = kv.1) := by
  obtain ⟨after, locals, h1, _, h3, h4, _, h6, _⟩ :=
    host_map_tracks_round exampleEnv false (exampleCluster false 0)
      (Reachable.created 0 OkStatus
        (exampleConfig false [exampleLocality [exampleEndpoint "foo.example" 443]])
        (exampleCluster false 0) rfl)
      exampleEnv_follows_spec 0 exampleTarget ResolutionStatus.Completed
      [entry "10.0.0.1" 30, entry "10.0.0.2" 40] 0 (by decide) (by decide) (fun _ _ _ => rfl)
  exact ⟨after, locals, h1, h3.trans (by decide), h4, h6⟩

/-- C16: under the contract of the differ, when two consecutive successful rounds of one
target (the second started by the timer of the first) resolve the same set of address
strings, the second round leaves the target's `all_hosts_` as the first round left it (same
keys, same host objects), publishes nothing through `updateAllHosts`, and increments
`update_no_rebuild` by exactly one. -/
theorem unchanged_round_keeps_host_map {β : Type} (env : Env β) (started : Bool)
    (c : DnsClusterImpl β) (hreach : Reachable env started c) (hd : DifferFollowsSpec env)
    (i : Nat) (target : ResolveTarget) (status1 status2 : ResolutionStatus)
    (response1 response2 : List DnsResponse) (random1 random2 : Nat)
    (ht : c.resolve_targets[i]? = some target)
    (hs1 : ResolveTarget.isSuccessfulResponse c.all_addresses_in_single_endpoint response1
      status1 = true)
    (hc1 : ConstructionSucceeds env target response1)
    (hs2 : ResolveTarget.isSuccessfulResponse c.all_addresses_in_single_endpoint response2
      status2 = true)
    (hc2 : ConstructionSucceeds env target response2)
    (hsame : ∀ k : String,
      k ∈ (contributingEntries c.all_addresses_in_single_endpoint target.port response1).map
          (entryKey target.port) ↔
        k ∈ (contributingEntries c.all_addresses_in_single_endpoint target.port response2).map
          (entryKey target.port)) :
    ((onResolveComplete env
          (startResolve (onResolveComplete env c i status1 response1 random1) i) i status2
          response2 random2).resolve_targets[i]?).map (fun t => t.all_hosts) =
        ((onResolveComplete env c i status1 response1 random1).resolve_targets[i]?).map
          (fun t => t.all_hosts) ∧
      (onResolveComplete env
          (startResolve (onResolveComplete env c i status1 response1 random1) i) i status2
          response2 random2).stats.update_no_rebuild =
        (onResolveComplete env c i status1 response1 random1).stats.update_no_rebuild + 1 ∧
      (∀ (p : Nat) (hosts added removed : HostVector) (w : Bool) (o : Nat),
        Event.updateClusterPrioritySet p hosts added removed w o ∉
          (onResolveComplete env
            (startResolve (onResolveComplete env c i status1 response1 random1) i) i status2
            response2 random2).trace.drop
            (startResolve (onResolveComplete env c i status1 response1 random1) i).trace.length) := by
  have hi := lt_length_of_getElem? ht
  -- the first round
  obtain ⟨locals1, hl1, _, hset1, _⟩ :=
    responseLoop_ok env c.all_addresses_in_single_endpoint
      { target with active_query := false } response1 hc1 (RoundLocals.init c.next_host_uid)
  have hkeys1 := responseLoop_keys env c.all_addresses_in_single_endpoint
    { target with active_query := false } response1 (RoundLocals.init c.next_host_uid) locals1
    hl1 rfl
  have hwf := reachable_map_wellFormed env hd started c hreach target (mem_of_getElem? ht)
  obtain ⟨hwf1, hk1, _⟩ := round_host_map env hd target locals1 hwf hkeys1
  have heq1 := onResolveComplete_success_eq env c i target status1 response1 random1 locals1
    ht hs1 hl1
  generalize hc1def : onResolveComplete env c i status1 response1 random1 = c1 at heq1 ⊢
  generalize hd1 : successRefreshRate c.dns_refresh_rate_ms c.dns_jitter_ms c.respect_dns_ttl
    response1 locals1.ttl_refresh_rate random1 = d1 at heq1
  have hget1 : c1.resolve_targets[i]? =
      some { targetAfterUpdate target (roundUpdate env target locals1) with
        resolve_timer := some d1 } := by
    rw [heq1]
    simp only [List.getElem?_set, hi, if_true]
  -- the timer fires
  have hstart := startResolve_eq c1 i _ hget1
  generalize hsdef : startResolve c1 i = s at hstart ⊢
  have hi1 := lt_length_of_getElem? hget1
  have hgets : s.resolve_targets[i]? =
      some { targetAfterUpdate target (roundUpdate env target locals1) with
        active_query := true, resolve_timer := none } := by
    rw [hstart]
    simp only [List.getElem?_set, hi1, if_true]
  have hsingle : s.all_addresses_in_single_endpoint = c.all_addresses_in_single_endpoint := by
    rw [hstart, heq1]
  have hstats : s.stats.update_no_rebuild = c1.stats.update_no_rebuild := by
    rw [hstart]
  -- the second round
  have hs2' : ResolveTarget.isSuccessfulResponse s.all_addresses_in_single_endpoint response2
      status2 = true := by rw [hsingle]; exact hs2
  obtain ⟨locals2, hl2, _, hset2, _⟩ :=
    responseLoop_ok env s.all_addresses_in_single_endpoint
      { ({ targetAfterUpdate target (roundUpdate env target locals1) with
            active_query := true, resolve_timer := none } : ResolveTarget) with
        active_query := false }
      response2 hc2 (RoundLocals.init s.next_host_uid)
  have hkeys2 := responseLoop_keys env s.all_addresses_in_single_endpoint _ response2
    (RoundLocals.init s.next_host_uid) locals2 hl2 rfl
  have hunchanged : (roundUpdate env
      ({ targetAfterUpdate target (roundUpdate env target locals1) with
          active_query := true, resolve_timer := none } : ResolveTarget) locals2).changed =
      false := by
    refine round_unchanged env hd _ locals2 hwf1 hkeys2 ?_
    intro k
    have h1 : k ∈ (targetAfterUpdate target (roundUpdate env target locals1)).all_hosts.map
        Prod.fst ↔ k ∈ locals1.all_new_hosts := hk1 k
    have h2 : locals1.all_new_hosts =
        (contributingEntries c.all_addresses_in_single_endpoint target.port response1).map
          (entryKey target.port) := by
      rw [hset1]
      simp only [RoundLocals.init, keptFrom_nil_seen, List.nil_append]
    have h3 : locals2.all_new_hosts =
        (contributingEntries c.all_addresses_in_single_endpoint target.port response2).map
          (entryKey target.port) := by
      rw [hset2, hsingle]
      simp only [RoundLocals.init, keptFrom_nil_seen, List.nil_append]
      rfl
    rw [h3, ← hsame k, ← h2]
    exact h1
  have heq2 := onResolveComplete_success_eq env s i _ status2 response2 random2 locals2
    hgets hs2' hl2
  have his := lt_length_of_getElem? hgets
  generalize roundUpdate env
    ({ targetAfterUpdate target (roundUpdate env target locals1) with
        active_query := true, resolve_timer := none } : ResolveTarget) locals2 = update2
    at hunchanged heq2
  refine ⟨?_, ?_, ?_⟩
  · rw [heq2, hget1]
    simp only [List.getElem?_set, his, if_true, Option.map_some', targetAfterUpdate,
      hunchanged, Bool.false_eq_true, if_false]
  · rw [heq2]
    simp only [hunchanged, Bool.false_eq_true, if_false, hstats]
  · intro p hosts added removed w o hmem
    rw [heq2] at hmem
    simp only [hunchanged, Bool.false_eq_true, if_false, List.append_nil, List.append_assoc,
      List.drop_left] at hmem
    split at hmem <;> simp at hmem

/-- Witness of C16: the example cluster resolves 10.0.0.1 and 10.0.0.2, and in the next
round the same addresses in the other order: `update_no_rebuild` becomes 1. -/
theorem unchanged_round_keeps_host_map_witness :
    (onResolveComplete exampleEnv
        (startResolve
          (onResolveComplete exampleEnv (exampleCluster false 0).startPreInit 0
            ResolutionStatus.Completed [entry "10.0.0.1" 30, entry "10.0.0.2" 40] 0) 0)
        0 ResolutionStatus.Completed [entry "10.0.0.2" 40, entry "10.0.0.1" 30]
        0).stats.update_no_rebuild = 1 :=
  (unchanged_round_keeps_host_map exampleEnv true (exampleCluster false 0).startPreInit
    (Reachable.preInit (exampleCluster false 0)
      (Reachable.created 0 OkStatus
        (exampleConfig false [exampleLocality [exampleEndpoint "foo.example" 443]])
        (exampleCluster false 0) rfl))
    exampleEnv_follows_spec 0 { exampleTarget with active_query := true }
    ResolutionStatus.Completed ResolutionStatus.Completed
    [entry "10.0.0.1" 30, entry "10.0.0.2" 40] [entry "10.0.0.2" 40, entry "10.0.0.1" 30] 0 0
    (by decide) (by decide) (fun _ _ _ => rfl) (by decide) (fun _ _ _ => rfl)
    (fun k => by
      show k ∈ ["10.0.0.1:443", "10.0.0.2:443"] ↔ k ∈ ["10.0.0.2:443", "10.0.0.1:443"]
      simp [or_comm])).2.1

end Upstream
end Envoy
